import Mathlib

/-!
# Verification of the OCR invoice-extraction pipeline

Shallow embedding of the layout-aware field extraction and validation
pipeline (`src/extraction/patterns.py`, `src/extraction/layout_analyzer.py`,
`src/extraction/field_extractor.py`, `src/extraction/simple_extractor.py`,
`src/validation/validator.py`).

Modelling conventions:
* Python `float` is modelled by `ℚ` (exact arithmetic; the numeric claims
  under scrutiny involve decimal constants and comparisons far from any
  binary-rounding boundary).
* Python strings are modelled by `List Char`; `str.lower()` is ASCII
  lowering (the Arabic script has no case).
* Python's `re` module is modelled by a small backtracking engine with
  Python's leftmost search, greedy quantifiers, alternation order,
  capturing groups and word boundaries.  `\d` / `\w` cover the character
  repertoire actually reaching the code (ASCII plus the Arabic block),
  mirroring Python's unicode-aware classes on those characters.
* Interpolated message / fix strings of the validator are modelled by
  inductive constructors carrying the interpolated data (string
  rendering is presentation only and is not validated by any claim).
-/

namespace OCRPart

/-- Python strings are modelled as lists of characters. -/
abbrev Str := List Char

/-- ASCII lowering, as performed by `str.lower()` on the texts that reach
this code (ASCII letters; Arabic has no case). -/
def pyLowerChar (c : Char) : Char :=
  if 'A' ≤ c ∧ c ≤ 'Z' then Char.ofNat (c.toNat + 32) else c

/-- `str.lower()`. -/
def pyLower (s : Str) : Str := s.map pyLowerChar

/-- Python's `\d` on the characters reaching this code: ASCII digits and
Arabic-Indic digits (U+0660–U+0669). -/
def pyIsDigit (c : Char) : Bool :=
  ('0' ≤ c ∧ c ≤ '9') ∨ (0x660 ≤ c.toNat ∧ c.toNat ≤ 0x669)

/-- Python's `\w` on the characters reaching this code: ASCII
alphanumerics, underscore, and the Arabic block (U+0600–U+06FF, which
contains the Arabic letters and Arabic-Indic digits). -/
def pyIsWord (c : Char) : Bool :=
  ('0' ≤ c ∧ c ≤ '9') ∨ ('a' ≤ c ∧ c ≤ 'z') ∨ ('A' ≤ c ∧ c ≤ 'Z') ∨
    c = '_' ∨ (0x600 ≤ c.toNat ∧ c.toNat ≤ 0x6FF)

/-- Python's `\s` on the characters reaching this code. -/
def pyIsSpace (c : Char) : Bool :=
  c = ' ' ∨ c = '\t' ∨ c = '\n' ∨ c = '\r' ∨ c.toNat = 0x0b ∨ c.toNat = 0x0c

/-- Substring containment (`needle in hay` on Python strings). -/
def strContains (hay needle : Str) : Bool :=
  (List.range (hay.length + 1)).any fun i => needle.isPrefixOf (hay.drop i)

/-- `str.strip()` (strip leading and trailing whitespace). -/
def pyStrip (s : Str) : Str :=
  (s.dropWhile pyIsSpace).reverse.dropWhile pyIsSpace |>.reverse

/-- `s.replace(old, new)` for single characters. -/
def replaceChar (s : Str) (old new : Char) : Str :=
  s.map fun c => if c = old then new else c

/-- `s.replace(old, '')` for a single character (deletion). -/
def removeChar (s : Str) (old : Char) : Str := s.filter (· ≠ old)

/-- `s.count(c)` for a single character. -/
def countChar (s : Str) (c : Char) : Nat := (s.filter (· = c)).length

end OCRPart

namespace OCRPart.Re

/-!
## A small regex engine

Mirrors the fragment of Python `re` used by the repository: character
classes, literals, concatenation, ordered alternation, greedy bounded /
unbounded quantifiers, the greedy option, word boundaries `\b`, the
anchors `^` / `$`, and capturing groups.  `search` scans start positions
left to right (Python's leftmost-match rule); within a start position the
backtracking order is Python's (greedy quantifiers try the longest
repetition first, alternatives are tried in writing order).
-/

/-- Regex abstract syntax. -/
inductive RE where
  | eps : RE
  | cls : (Char → Bool) → RE
  | cat : RE → RE → RE
  | alt : RE → RE → RE
  /-- Greedy `{lo,hi}`; `hi = none` means unbounded (`*`, `+`, `{lo,}`). -/
  | rep : RE → Nat → Option Nat → RE
  /-- Greedy `?`. -/
  | opt : RE → RE
  /-- Word boundary `\b`. -/
  | wb : RE
  /-- Start-of-string anchor `^` (no MULTILINE flags are used). -/
  | bos : RE
  /-- `$`: end of string, or just before a trailing newline. -/
  | eos : RE
  /-- Capturing group with 1-based index. -/
  | grp : Nat → RE → RE

/-- Captures, most recently closed group first: `(index, start, stop)`. -/
abbrev Caps := List (Nat × Nat × Nat)

/-- A continuation receives the position after the sub-match and the
captures accumulated so far. -/
abbrev Cont := Nat → Caps → Option (Nat × Caps)

/-- `\b` holds at `i` iff exactly one side of the position is a word
character. -/
def wordBoundaryAt (s : Str) (i : Nat) : Bool :=
  let prevW := match s[i-1]? with
    | some c => decide (0 < i) && pyIsWord c
    | none => false
  let curW := match s[i]? with
    | some c => pyIsWord c
    | none => false
  prevW != curW

/-- Greedy repetition: try one more iteration of the body first, fall back
to exiting the loop once the minimum count is satisfied.  `fuel` bounds the
remaining iterations (for unbounded quantifiers the caller passes the
remaining string length plus one; every repeated body in the embedded
patterns consumes at least one character, which the `i < j` progress guard
enforces, matching Python's empty-match loop cutoff). -/
def repMatch (body : Nat → Caps → Cont → Option (Nat × Caps)) :
    Nat → Nat → Caps → Cont → Nat → Option (Nat × Caps)
  | lo, i, g, k, 0 => if lo = 0 then k i g else none
  | lo, i, g, k, fuel + 1 =>
    match body i g (fun j g' =>
        if i < j then repMatch body (lo - 1) j g' k fuel else none) with
    | some r => some r
    | none => if lo = 0 then k i g else none

/-- CPS matcher at a fixed subject string `s`. -/
def mtch (s : Str) : RE → Nat → Caps → Cont → Option (Nat × Caps)
  | .eps, i, g, k => k i g
  | .cls p, i, g, k =>
    match s[i]? with
    | some c => if p c then k (i + 1) g else none
    | none => none
  | .cat r₁ r₂, i, g, k => mtch s r₁ i g fun j g' => mtch s r₂ j g' k
  | .alt r₁ r₂, i, g, k =>
    match mtch s r₁ i g k with
    | some r => some r
    | none => mtch s r₂ i g k
  | .rep r lo hi, i, g, k =>
    let fuel := match hi with
      | some h => h
      | none => s.length + 1
    repMatch (fun i' g' k' => mtch s r i' g' k') lo i g k fuel
  | .opt r, i, g, k =>
    match mtch s r i g k with
    | some res => some res
    | none => k i g
  | .wb, i, g, k => if wordBoundaryAt s i then k i g else none
  | .bos, i, g, k => if i = 0 then k i g else none
  | .eos, i, g, k =>
    if i = s.length ∨ (i + 1 = s.length ∧ s[i]? = some '\n') then k i g
    else none
  | .grp n r, i, g, k => mtch s r i g fun j g' => k j ((n, i, j) :: g')

/-- A successful match: start, stop and captures. -/
structure MatchRes where
  start : Nat
  stop : Nat
  caps : Caps
deriving DecidableEq, Repr

/-- Try to match `r` starting exactly at position `i`. -/
def matchAt (r : RE) (s : Str) (i : Nat) : Option MatchRes :=
  (mtch s r i [] fun j g => some (j, g)).map fun (j, g) =>
    { start := i, stop := j, caps := g }

/-- Scan start positions `i, i+1, …` left to right; first position with a
match wins (`re.search`).  `fuel` is the number of positions left to try. -/
def searchFrom (r : RE) (s : Str) (i : Nat) : Nat → Option MatchRes
  | 0 => none
  | fuel + 1 =>
    match matchAt r s i with
    | some m => some m
    | none => searchFrom r s (i + 1) fuel

/-- `re.search(r, s)`. -/
def search (r : RE) (s : Str) : Option MatchRes :=
  searchFrom r s 0 (s.length + 1)

/-- `re.match(r, s)`: anchored at the start of the string. -/
def matchStart (r : RE) (s : Str) : Option MatchRes := matchAt r s 0

/-- `s[a:b]`. -/
def slice (s : Str) (a b : Nat) : Str := (s.take b).drop a

/-- `match.group()` / `match.group(0)`. -/
def MatchRes.group0 (m : MatchRes) (s : Str) : Str := slice s m.start m.stop

/-- `match.group(n)` for `n ≥ 1`: the span of the most recent close of
group `n`, or `None` when the group did not participate. -/
def MatchRes.group (m : MatchRes) (n : Nat) (s : Str) : Option Str :=
  (m.caps.find? fun e => e.1 = n).map fun e => slice s e.2.1 e.2.2

/-- `match.lastindex`: the index of the group that closed last, or `None`
when no group participated. -/
def MatchRes.lastindex (m : MatchRes) : Option Nat := m.caps.head?.map (·.1)

/-- Delete all (non-overlapping, leftmost-first) matches of `r` from `s`:
`re.sub(r, '', s)`.  Matching is performed on the original string; the
deleted spans are removed afterwards.  `fuel` bounds the number of
matches (every pattern passed here matches at least one character). -/
def collectMatches (r : RE) (s : Str) : Nat → Nat → List (Nat × Nat)
  | _, 0 => []
  | i, fuel + 1 =>
    match searchFrom r s i (s.length + 1 - i) with
    | none => []
    | some m =>
      if m.start < m.stop then
        (m.start, m.stop) :: collectMatches r s m.stop fuel
      else
        -- zero-width match: Python advances one position (does not occur
        -- for the patterns used in `re.sub` by this repository)
        (m.start, m.stop) :: collectMatches r s (m.stop + 1) fuel

/-- `re.sub(r, '', s)`. -/
def subEmpty (r : RE) (s : Str) : Str :=
  let spans := collectMatches r s 0 (s.length + 1)
  (List.range s.length).filterMap fun i =>
    if spans.any fun sp => sp.1 ≤ i ∧ i < sp.2 then none else s[i]?

/-- Character class matching one given character. -/
def chr (c : Char) : RE := .cls (· = c)

/-- Case-insensitive single character. -/
def chrI (c : Char) : RE := .cls fun d => pyLowerChar d = pyLowerChar c

/-- Character class drawn from an explicit list. -/
def oneOf (cs : Str) : RE := .cls fun d => cs.contains d

/-- Case-insensitive character class drawn from an explicit list. -/
def oneOfI (cs : Str) : RE := .cls fun d => cs.contains (pyLowerChar d)

/-- Literal string. -/
def lit (cs : Str) : RE := cs.foldr (fun c r => .cat (chr c) r) .eps

/-- Case-insensitive literal string. -/
def litI (cs : Str) : RE := cs.foldr (fun c r => .cat (chrI c) r) .eps

/-- Sequence of regexes. -/
def seq (rs : List RE) : RE := rs.foldr .cat .eps

/-- Ordered alternation over a non-empty list. -/
def alts : List RE → RE
  | [] => .eps
  | [r] => r
  | r :: rs => .alt r (alts rs)

/-- `r*` (greedy). -/
def star (r : RE) : RE := .rep r 0 none

/-- `r+` (greedy). -/
def plus (r : RE) : RE := .rep r 1 none

/-- `r{lo,hi}` (greedy, bounded). -/
def repB (r : RE) (lo hi : Nat) : RE := .rep r lo (some hi)

/-- `\d`. -/
def dig : RE := .cls pyIsDigit

/-- `\s`. -/
def wsp : RE := .cls pyIsSpace

end OCRPart.Re

namespace OCRPart

/-!
## Python `float()` parsing

`float(str)` strips whitespace, then accepts an optional sign followed by
`digits [. digits] [exponent]` or `. digits [exponent]`, with single
underscores allowed between digits.  The result is modelled exactly in
`ℚ` (CPython rounds to binary64; the claims under scrutiny involve values
and comparisons unaffected by that rounding).  The special spellings
`inf` / `infinity` / `nan` have no `ℚ` counterpart and are modelled as
parse failures; they cannot be produced by the digit-bearing strings this
repository feeds to `float()`. -/

/-- Numeric value of an ASCII or Arabic-Indic digit. -/
def digitVal (c : Char) : Nat :=
  if '0' ≤ c ∧ c ≤ '9' then c.toNat - 48 else c.toNat - 0x660

/-- Take the maximal run of digits/underscores from the front. -/
def takeDigitsU (s : Str) : Str × Str :=
  (s.takeWhile (fun c => pyIsDigit c ∨ c = '_'),
   s.dropWhile (fun c => pyIsDigit c ∨ c = '_'))

/-- A digit run is valid when every underscore sits between two digits. -/
def validRun (s : Str) : Bool :=
  s.all (fun c => pyIsDigit c ∨ c = '_') &&
  (List.range s.length).all fun i =>
    match s[i]? with
    | some '_' =>
      (match s[i-1]? with
       | some c => decide (0 < i) && pyIsDigit c
       | none => false) &&
      (match s[i+1]? with
       | some c => pyIsDigit c
       | none => false)
    | _ => true

/-- Value of a digit run, underscores skipped. -/
def runVal (s : Str) : Nat :=
  (s.filter pyIsDigit).foldl (fun acc c => acc * 10 + digitVal c) 0

/-- Number of true digits in a run. -/
def runLen (s : Str) : Nat := (s.filter pyIsDigit).length

/-- Parse an optional exponent `[eE][+-]?digits` and require the string
to be exhausted. -/
def pyFloatExp (s : Str) : Option ℤ :=
  match s with
  | [] => some 0
  | e :: rest =>
    if e = 'e' ∨ e = 'E' then
      let (sgn, rest') :=
        match rest with
        | '+' :: r => ((1 : ℤ), r)
        | '-' :: r => ((-1 : ℤ), r)
        | r => (1, r)
      let (run, rest'') := takeDigitsU rest'
      if rest'' = [] ∧ run ≠ [] ∧ validRun run then
        some (sgn * (runVal run : ℤ))
      else none
    else none

/-- `mant · 10^(e - fracDigits)` as an exact rational, computed with
natural-number powers (kernel-reduction friendly). -/
def ratScale (mant : ℤ) (fracDigits : Nat) (e : ℤ) : ℚ :=
  let e' := e - fracDigits
  if 0 ≤ e' then mkRat (mant * 10 ^ e'.toNat) 1
  else mkRat mant (10 ^ (-e').toNat)

/-- The digit part after an optional sign: `digits [. digits] [exp]` or
`. digits [exp]`. -/
def pyFloatBody (s : Str) : Option ℚ :=
  let (ip, rest) := takeDigitsU s
  if ¬ validRun ip then none else
  match rest with
  | '.' :: rest' =>
    let (fp, rest'') := takeDigitsU rest'
    if ¬ validRun fp then none else
    if ip = [] ∧ fp = [] then none else
    match pyFloatExp rest'' with
    | some e =>
      some (ratScale (runVal ip * 10 ^ runLen fp + runVal fp : ℕ) (runLen fp) e)
    | none => none
  | _ =>
    if ip = [] then none else
    match pyFloatExp rest with
    | some e => some (ratScale (runVal ip : ℕ) 0 e)
    | none => none

/-- `float(s)`, as `Option ℚ` (`none` = `ValueError`). -/
def pyFloat (s : Str) : Option ℚ :=
  let t := pyStrip s
  match t with
  | '+' :: r => pyFloatBody r
  | '-' :: r => (pyFloatBody r).map (- ·)
  | r => pyFloatBody r

/-- `int(s)` for a string of decimal digits (`re.match(r'^\d+$')`-checked
call sites only). -/
def pyIntDigits (s : Str) : Nat :=
  s.foldl (fun acc c => acc * 10 + digitVal c) 0

/-- ASCII uppercase (`str.upper()` on the texts reaching this code). -/
def pyUpperChar (c : Char) : Char :=
  if 'a' ≤ c ∧ c ≤ 'z' then Char.ofNat (c.toNat - 32) else c

/-- `str.upper()`. -/
def pyUpper (s : Str) : Str := s.map pyUpperChar

end OCRPart

namespace OCRPart.Patterns

/-!
## `extraction/patterns.py` — the pattern library

Each compiled regex of `InvoicePatterns._compile_patterns` is transcribed
into the `RE` syntax; dictionaries become ordered association lists
because the extraction loops iterate them in insertion order.
-/

open Re

/-- `[a-z]` under `re.IGNORECASE` (also used for `[A-Z]` with that flag). -/
def azI : RE := .cls fun c => 'a' ≤ pyLowerChar c ∧ pyLowerChar c ≤ 'z'

/-- Arabic-Indic digit class `[٠-٩]` (U+0660–U+0669). -/
def adig : RE := .cls fun c => 0x660 ≤ c.toNat ∧ c.toNat ≤ 0x669

/-- `[-#\s/]` / `[:#\s]` style classes (class member order immaterial). -/
def clsOfWithSpace (cs : Str) : RE := .cls fun c => cs.contains c ∨ pyIsSpace c

/-- `iso_date`: `\b(\d{4})[/‐](\d{1,2})[/‐](\d{1,2})\b`. -/
def isoDate : RE :=
  seq [.wb, .grp 1 (repB dig 4 4), oneOf "-/".data, .grp 2 (repB dig 1 2),
    oneOf "-/".data, .grp 3 (repB dig 1 2), .wb]

/-- `dmy_slash` / `mdy_slash`: `\b(\d{1,2})/(\d{1,2})/(\d{4})\b`. -/
def dmySlash : RE :=
  seq [.wb, .grp 1 (repB dig 1 2), chr '/', .grp 2 (repB dig 1 2),
    chr '/', .grp 3 (repB dig 4 4), .wb]

/-- `dmy_dash`: `\b(\d{1,2})-(\d{1,2})-(\d{4})\b`. -/
def dmyDash : RE :=
  seq [.wb, .grp 1 (repB dig 1 2), chr '-', .grp 2 (repB dig 1 2),
    chr '-', .grp 3 (repB dig 4 4), .wb]

/-- The ordered month-abbreviation alternation. -/
def monthAlt : RE :=
  alts [litI "Jan".data, litI "Feb".data, litI "Mar".data, litI "Apr".data,
    litI "May".data, litI "Jun".data, litI "Jul".data, litI "Aug".data,
    litI "Sep".data, litI "Oct".data, litI "Nov".data, litI "Dec".data]

/-- `month_name`:
`\b(\d{1,2})\s+(Jan|…|Dec)[a-z]*\s+(\d{4})\b`, `re.IGNORECASE`. -/
def monthName : RE :=
  seq [.wb, .grp 1 (repB dig 1 2), plus wsp, .grp 2 monthAlt, star azI,
    plus wsp, .grp 3 (repB dig 4 4), .wb]

/-- `name_month`:
`\b(Jan|…|Dec)[a-z]*\s+(\d{1,2}),?\s+(\d{4})\b`, `re.IGNORECASE`. -/
def nameMonth : RE :=
  seq [.wb, .grp 1 monthAlt, star azI, plus wsp, .grp 2 (repB dig 1 2),
    .opt (chr ','), plus wsp, .grp 3 (repB dig 4 4), .wb]

/-- `arabic_date`: `[٠-٩]{1,2}[/‐][٠-٩]{1,2}[/‐][٠-٩]{4}`. -/
def arabicDate : RE :=
  seq [repB adig 1 2, oneOf "-/".data, repB adig 1 2, oneOf "-/".data,
    repB adig 4 4]

/-- `compact_date`: `\b(20\d{2})(\d{2})(\d{2})\b`. -/
def compactDate : RE :=
  seq [.wb, .grp 1 (seq [chr '2', chr '0', repB dig 2 2]),
    .grp 2 (repB dig 2 2), .grp 3 (repB dig 2 2), .wb]

/-- `date_patterns`, in dictionary (insertion) order. -/
def datePatterns : List (Str × RE) :=
  [("iso_date".data, isoDate), ("dmy_slash".data, dmySlash),
   ("dmy_dash".data, dmyDash), ("mdy_slash".data, dmySlash),
   ("month_name".data, monthName), ("name_month".data, nameMonth),
   ("arabic_date".data, arabicDate), ("compact_date".data, compactDate)]

/-- `decimal_comma`: `\b\d{1,3}(?:,\d{3})*(?:\.\d{2,}|\.\d{1,2})?\b`. -/
def decimalComma : RE :=
  seq [.wb, repB dig 1 3, star (seq [chr ',', repB dig 3 3]),
    .opt (.alt (seq [chr '.', .rep dig 2 none])
               (seq [chr '.', repB dig 1 2])), .wb]

/-- `decimal_space`: `\b\d{1,3}(?:\s\d{3})*(?:\.\d{2,}|\.\d{1,2})?\b`. -/
def decimalSpace : RE :=
  seq [.wb, repB dig 1 3, star (seq [wsp, repB dig 3 3]),
    .opt (.alt (seq [chr '.', .rep dig 2 none])
               (seq [chr '.', repB dig 1 2])), .wb]

/-- `decimal_dot`: `\b\d{1,3}(?:\.\d{3})*(?:,\d{2,}|,\d{1,2})?\b`. -/
def decimalDot : RE :=
  seq [.wb, repB dig 1 3, star (seq [chr '.', repB dig 3 3]),
    .opt (.alt (seq [chr ',', .rep dig 2 none])
               (seq [chr ',', repB dig 1 2])), .wb]

/-- `simple_number`: `\b\d+(?:\.\d{1,2})?\b`. -/
def simpleNumber : RE :=
  seq [.wb, plus dig, .opt (seq [chr '.', repB dig 1 2]), .wb]

/-- `arabic_number`: `[٠-٩]+(?:\.[٠-٩]+)?`. -/
def arabicNumber : RE :=
  seq [plus adig, .opt (seq [chr '.', plus adig])]

/-- The currency symbol class `[$£€¥₹₪﷼]`. -/
def curSymbols : Str := "$£€¥₹₪﷼".data

/-- The numeric core shared by both `with_currency` alternatives:
`\d{1,3}(?:[,.\s]\d{3})*(?:[.,]\d{2})?`. -/
def wcNumber : RE :=
  seq [repB dig 1 3,
    star (seq [.cls (fun c => c = ',' ∨ c = '.' ∨ pyIsSpace c), repB dig 3 3]),
    .opt (seq [oneOf ",.".data, repB dig 2 2])]

/-- The big trailing character class of `with_currency` (written in the
source as one `[...]` containing currency symbols, Latin code letters,
`|`, and the letters of the Arabic currency names), under
`re.IGNORECASE`. -/
def wcTrailClass : RE :=
  .cls fun c =>
    curSymbols.contains c ∨ c = '|' ∨
    "saregpudqkwombhjlyi".data.contains (pyLowerChar c) ∨
    "ريالجنهدم".data.contains c

/-- `with_currency`:
`(?:[$£€¥₹₪﷼])\s*(\d{1,3}(?:[,.\s]\d{3})*(?:[.,]\d{2})?)|`
`(\d{1,3}(?:[,.\s]\d{3})*(?:[.,]\d{2})?)\s*(?:[$£€¥₹₪﷼SAR|EGP|…|درهم])`,
`re.IGNORECASE`. -/
def withCurrency : RE :=
  .alt (seq [oneOf curSymbols, star wsp, .grp 1 wcNumber])
       (seq [.grp 2 wcNumber, star wsp, wcTrailClass])

/-- `number_patterns`, in dictionary (insertion) order. -/
def numberPatterns : List (Str × RE) :=
  [("decimal_comma".data, decimalComma), ("decimal_space".data, decimalSpace),
   ("decimal_dot".data, decimalDot), ("simple_number".data, simpleNumber),
   ("arabic_number".data, arabicNumber), ("with_currency".data, withCurrency)]

/-- `standard`: `\b(?:INV|INVOICE|INV#|NO|#|N°)[-#\s/]*(\d{4,})\b`,
`re.IGNORECASE`. -/
def invStandard : RE :=
  seq [.wb, alts [litI "INV".data, litI "INVOICE".data, litI "INV#".data,
      litI "NO".data, lit "#".data, litI "N°".data],
    star (clsOfWithSpace "-/#".data), .grp 1 (.rep dig 4 none), .wb]

/-- `with_year`: `\b([A-Z]{2,4})[-#\s/]*(20\d{2})[-#\s/]*(\d{3,})\b`,
`re.IGNORECASE`. -/
def invWithYear : RE :=
  seq [.wb, .grp 1 (repB azI 2 4), star (clsOfWithSpace "-/#".data),
    .grp 2 (seq [chr '2', chr '0', repB dig 2 2]),
    star (clsOfWithSpace "-/#".data), .grp 3 (.rep dig 3 none), .wb]

/-- `sequential`: `\b\d{5,8}\b`. -/
def invSequential : RE := seq [.wb, .rep dig 5 (some 8), .wb]

/-- `arabic_marker`: `(?:فاتورة|رقم|رقم الفاتورة)\s*[:#\s]*(\d+)`. -/
def invArabicMarker : RE :=
  seq [alts [lit "فاتورة".data, lit "رقم".data, lit "رقم الفاتورة".data],
    star wsp, star (clsOfWithSpace ":#".data), .grp 1 (plus dig)]

/-- `invoice_number_patterns`, in dictionary (insertion) order. -/
def invoiceNumberPatterns : List (Str × RE) :=
  [("standard".data, invStandard), ("with_year".data, invWithYear),
   ("sequential".data, invSequential), ("arabic_marker".data, invArabicMarker)]

/-- `tax_id`: `\b(?:TAX|VAT|TIN|EIN|TRN)[-\s#:]*([A-Z0-9]{8,15})\b`,
`re.IGNORECASE`. -/
def taxId : RE :=
  seq [.wb, alts [litI "TAX".data, litI "VAT".data, litI "TIN".data,
      litI "EIN".data, litI "TRN".data],
    star (clsOfWithSpace "-#:".data),
    .grp 1 (.rep (.cls fun c => ('A' ≤ pyUpperChar c ∧ pyUpperChar c ≤ 'Z') ∨
      ('0' ≤ c ∧ c ≤ '9')) 8 (some 15)), .wb]

/-- `tax_percentage`: `(?:VAT|TAX|ضريبة)?\s*(\d{1,2}(?:\.\d{1,2})?)\s*%`,
`re.IGNORECASE`. -/
def taxPercentage : RE :=
  seq [.opt (alts [litI "VAT".data, litI "TAX".data, lit "ضريبة".data]),
    star wsp, .grp 1 (seq [repB dig 1 2, .opt (seq [chr '.', repB dig 1 2])]),
    star wsp, chr '%']

/-- `arabic_tax`: `(?:الرقم الضريبي|رقم ضريبي)\s*[:]*\s*(\d+)`. -/
def arabicTax : RE :=
  seq [alts [lit "الرقم الضريبي".data, lit "رقم ضريبي".data],
    star wsp, star (chr ':'), star wsp, .grp 1 (plus dig)]

/-- `tax_patterns`, in dictionary (insertion) order. -/
def taxPatterns : List (Str × RE) :=
  [("tax_id".data, taxId), ("tax_percentage".data, taxPercentage),
   ("arabic_tax".data, arabicTax)]

/-- `[-.\s]?`. -/
def sepOpt : RE := .opt (clsOfWithSpace "-.".data)

/-- `international`: `\+\d{1,4}[-.\s]?\d{1,4}[-.\s]?\d{3,4}[-.\s]?\d{4}`. -/
def phoneInternational : RE :=
  seq [chr '+', repB dig 1 4, sepOpt, repB dig 1 4, sepOpt, repB dig 3 4,
    sepOpt, repB dig 4 4]

/-- `local`: `\(?\d{3}\)?[-.\s]?\d{3}[-.\s]?\d{4}`. -/
def phoneLocal : RE :=
  seq [.opt (chr '('), repB dig 3 3, .opt (chr ')'), sepOpt, repB dig 3 3,
    sepOpt, repB dig 4 4]

/-- `simple`: `\b0\d{9}\b`. -/
def phoneSimple : RE := seq [.wb, chr '0', repB dig 9 9, .wb]

/-- `phone_patterns`, in dictionary (insertion) order. -/
def phonePatterns : List (Str × RE) :=
  [("international".data, phoneInternational), ("local".data, phoneLocal),
   ("simple".data, phoneSimple)]

/-- `email_pattern`:
`\b[A-Za-z0-9._%+-]+@[A-Za-z0-9.-]+\.[A-Z|a-z]{2,}\b`. -/
def emailPattern : RE :=
  seq [.wb,
    plus (.cls fun c => ('A' ≤ pyUpperChar c ∧ pyUpperChar c ≤ 'Z') ∨
      ('0' ≤ c ∧ c ≤ '9') ∨ "._%+-".data.contains c),
    chr '@',
    plus (.cls fun c => ('A' ≤ pyUpperChar c ∧ pyUpperChar c ≤ 'Z') ∨
      ('0' ≤ c ∧ c ≤ '9') ∨ ".-".data.contains c),
    chr '.',
    .rep (.cls fun c => ('A' ≤ pyUpperChar c ∧ pyUpperChar c ≤ 'Z') ∨ c = '|')
      2 none,
    .wb]

/-- `currency_patterns['symbols']`: `[$£€¥₹₪﷼]`. -/
def currencySymbols : RE := oneOf curSymbols

/-- `currency_patterns['codes']`:
`\b(SAR|EGP|USD|EUR|GBP|AED|QAR|KWD|OMR|BHD|JOD|LBP|SYP|IQD)\b`,
`re.IGNORECASE`. -/
def currencyCodes : RE :=
  seq [.wb, .grp 1 (alts [litI "SAR".data, litI "EGP".data, litI "USD".data,
    litI "EUR".data, litI "GBP".data, litI "AED".data, litI "QAR".data,
    litI "KWD".data, litI "OMR".data, litI "BHD".data, litI "JOD".data,
    litI "LBP".data, litI "SYP".data, litI "IQD".data]), .wb]

/-- `currency_patterns['arabic']`: `(ريال|جنيه|دينار|درهم|ليرة)`. -/
def currencyArabic : RE :=
  .grp 1 (alts [lit "ريال".data, lit "جنيه".data, lit "دينار".data,
    lit "درهم".data, lit "ليرة".data])

/-- `invoice_number_keywords` (English then Arabic, list order kept). -/
def invoiceNumberKeywordsEn : List Str :=
  ["invoice number".data, "invoice no".data, "invoice #".data, "inv no".data,
   "inv#".data, "number".data, "no.".data, "reference".data, "ref".data,
   "document number".data, "bill no".data]

/-- Arabic invoice-number keywords. -/
def invoiceNumberKeywordsAr : List Str :=
  ["رقم الفاتورة".data, "رقم فاتورة".data, "فاتورة رقم".data, "رقم".data,
   "المرجع".data]

/-- `total_keywords` (English + Arabic, concatenated in source order). -/
def totalKeywords : List Str :=
  ["total".data, "grand total".data, "total amount".data, "amount due".data,
   "total due".data, "balance due".data, "net total".data, "final total".data,
   "total payable".data, "amount payable".data,
   "المجموع".data, "الإجمالي".data, "المبلغ الإجمالي".data,
   "الإجمالي الكلي".data, "المبلغ المستحق".data, "المجموع الكلي".data,
   "إجمالي المبلغ".data]

/-- `subtotal_keywords` (English + Arabic). -/
def subtotalKeywords : List Str :=
  ["subtotal".data, "sub-total".data, "sub total".data,
   "amount before tax".data, "net amount".data, "before tax".data,
   "المجموع الفرعي".data, "قبل الضريبة".data, "المبلغ قبل الضريبة".data,
   "المجموع قبل الضريبة".data]

/-- `tax_keywords` (English + Arabic). -/
def taxKeywords : List Str :=
  ["tax".data, "vat".data, "sales tax".data, "tax amount".data,
   "vat amount".data, "value added tax".data, "gst".data, "taxation".data,
   "ضريبة".data, "الضريبة".data, "ضريبة القيمة المضافة".data,
   "قيمة الضريبة".data, "مبلغ الضريبة".data, "ض.ق.م".data]

/-- `discount_keywords` (English + Arabic). -/
def discountKeywords : List Str :=
  ["discount".data, "reduction".data, "deduction".data, "rebate".data,
   "off".data, "discount amount".data, "total discount".data,
   "خصم".data, "تخفيض".data, "حسم".data, "الخصم".data, "قيمة الخصم".data]

/-- `customer_keywords` (English + Arabic). -/
def customerKeywords : List Str :=
  ["customer".data, "buyer".data, "to".data, "bill to".data,
   "billed to".data, "client".data, "customer name".data, "purchaser".data,
   "sold to".data,
   "العميل".data, "المشتري".data, "إلى".data, "العميل".data,
   "اسم العميل".data, "المستفيد".data, "الزبون".data]

/-- `normalize_arabic_numbers`: fold Arabic-Indic digits to Western. -/
def normalizeArabicNumbers (s : Str) : Str :=
  s.map fun c =>
    if 0x660 ≤ c.toNat ∧ c.toNat ≤ 0x669 then Char.ofNat (c.toNat - 0x660 + 48)
    else c

/-- `find_currency`. -/
def findCurrency (text : Str) : Str :=
  match Re.search currencySymbols text with
  | some m =>
    let g := m.group0 text
    if g = "$".data then "USD".data
    else if g = "£".data then "GBP".data
    else if g = "€".data then "EUR".data
    else if g = "¥".data then "JPY".data
    else if g = "₹".data then "INR".data
    else if g = "₪".data then "ILS".data
    else if g = "﷼".data then "SAR".data
    else "USD".data
  | none =>
    match Re.search currencyCodes text with
    | some m =>
      match m.group 1 text with
      | some g => pyUpper g
      | none => "USD".data
    | none =>
      match Re.search currencyArabic text with
      | some m =>
        let g := (m.group 1 text).getD []
        if g = "ريال".data then "SAR".data
        else if g = "جنيه".data then "EGP".data
        else if g = "دينار".data then "KWD".data
        else if g = "درهم".data then "AED".data
        else if g = "ليرة".data then "SAR".data
        else "SAR".data
      | none => "USD".data

/-- The currency-code stripping regex of `clean_amount`:
`\b(?:SAR|EGP|USD|EUR|GBP|AED|QAR|KWD)\b`, `re.IGNORECASE`. -/
def cleanAmountCodes : RE :=
  seq [.wb, alts [litI "SAR".data, litI "EGP".data, litI "USD".data,
    litI "EUR".data, litI "GBP".data, litI "AED".data, litI "QAR".data,
    litI "KWD".data], .wb]

/-- The separator-handling steps of `clean_amount`, applied to the string
after normalization / currency stripping / space removal. -/
def disambiguateSeparators (a : Str) : Str :=
  if a.contains ',' ∧ a.contains '.' then
    let lastComma := a.length - 1 - (a.reverse.indexOf ',')
    let lastDot := a.length - 1 - (a.reverse.indexOf '.')
    if lastComma > lastDot then
      -- comma is decimal: 1.234,56 -> 1234.56
      replaceChar (removeChar a '.') ',' '.'
    else
      -- dot is decimal: 1,234.56 -> 1234.56
      removeChar a ','
  else if a.contains ',' then
    if countChar a ',' = 1 ∧ (a.drop (a.indexOf ',' + 1)).length ≤ 2 then
      -- likely decimal: 123,45 -> 123.45
      replaceChar a ',' '.'
    else
      -- likely thousand separator: 1,234,567 -> 1234567
      removeChar a ','
  else a

/-- The normalization pipeline of `clean_amount` before the separator
branch: Arabic digit folding, currency symbol / code stripping, strip,
space removal. -/
def cleanAmountStrip (s : Str) : Str :=
  let a1 := normalizeArabicNumbers s
  let a2 := Re.subEmpty (oneOf curSymbols) a1
  let a3 := Re.subEmpty cleanAmountCodes a2
  removeChar (pyStrip a3) ' '

/-- `clean_amount`. -/
def cleanAmount (s : Str) : ℚ :=
  if s = [] then 0
  else
    let a := disambiguateSeparators (cleanAmountStrip s)
    (pyFloat a).getD 0

/-- `clean_amount` lifted to `Option` arguments (`clean_amount(None)`
returns 0.0 through the falsiness check). -/
def cleanAmountOpt : Option Str → ℚ
  | none => 0
  | some s => cleanAmount s

end OCRPart.Patterns

namespace OCRPart.Layout

/-!
## `extraction/layout_analyzer.py` — the layout analyzer

An OCR text element carries the fields the analyzed code reads: `text`,
`confidence`, `bbox` and the normalized center `(x, y)`.  (`center` and
`image_dimensions` are never read by the embedded code paths and are
omitted; element equality — used by `find_elements_near` to skip the
target — is Python dict equality restricted to these fields.)
-/

/-- An OCR text element. -/
structure Element where
  text : Str
  confidence : ℚ
  bbox : List (ℚ × ℚ)
  /-- `normalized_center[0]`. -/
  x : ℚ
  /-- `normalized_center[1]`. -/
  y : ℚ
deriving DecidableEq, Repr

/-- The fixed zone table of `LayoutAnalyzer.__init__`, in insertion
order: `(name, y_start, y_end)`. -/
def zoneDefs : List (Str × ℚ × ℚ) :=
  [("header".data, 0, 0.20), ("vendor".data, 0.20, 0.35),
   ("items".data, 0.35, 0.75), ("totals".data, 0.75, 0.95),
   ("footer".data, 0.95, 1.0)]

/-- `proximity_threshold`. -/
def proximityThreshold : ℚ := 0.05

/-- `horizontal_alignment_threshold`. -/
def alignmentThreshold : ℚ := 0.02

/-- `Zone.contains`: `y_start <= normalized_y <= y_end` — both bounds
inclusive. -/
def zoneContains (yStart yEnd normY : ℚ) : Bool := yStart ≤ normY ∧ normY ≤ yEnd

/-- The zone a y-coordinate lands in: the first zone (in table order)
whose `contains` holds, else the `'unknown'` fallback — mirroring the
first-match-wins loop of `_assign_to_zones`. -/
def firstZone (normY : ℚ) : Str :=
  match zoneDefs.find? fun z => zoneContains z.2.1 z.2.2 normY with
  | some z => z.1
  | none => "unknown".data

/-- Sort key `(y, x)`, non-strictly (stable merge sort models Python's
stable `list.sort`). -/
def leYX (a b : Element) : Bool := a.y < b.y ∨ (a.y = b.y ∧ a.x ≤ b.x)

/-- Sort by the y-coordinate. -/
def leY (a b : Element) : Bool := a.y ≤ b.y

/-- Sort by the x-coordinate. -/
def leX (a b : Element) : Bool := a.x ≤ b.x

/-- The zone partition produced by `_assign_to_zones` (a dict from zone
name to elements; absent keys read as `[]` through `.get(…, [])`). -/
structure ZoneMap where
  header : List Element
  vendor : List Element
  items : List Element
  totals : List Element
  footer : List Element
  unknown : List Element
deriving DecidableEq, Repr

/-- `_assign_to_zones`: each element goes to the first zone containing
its normalized y-center (else `'unknown'`), keeping input order, and each
zone is then sorted by `(y, x)`. -/
def assignToZones (ocr : List Element) : ZoneMap :=
  let inZone := fun (name : Str) =>
    ((ocr.filter fun e => firstZone e.y = name).mergeSort leYX)
  { header := inZone "header".data
    vendor := inZone "vendor".data
    items := inZone "items".data
    totals := inZone "totals".data
    footer := inZone "footer".data
    unknown := inZone "unknown".data }

/-- Read a zone list by name (`layout['zones'].get(name, [])`). -/
def ZoneMap.get (z : ZoneMap) (name : Str) : List Element :=
  if name = "header".data then z.header
  else if name = "vendor".data then z.vendor
  else if name = "items".data then z.items
  else if name = "totals".data then z.totals
  else if name = "footer".data then z.footer
  else if name = "unknown".data then z.unknown
  else []

/-- The walk of `_group_by_lines` over the y-sorted tail: `last` is the
last admitted element (`current_line[-1]`), `cur` the growing current
line, `lines` the finished lines (each sorted by x on completion). -/
def groupWalk : Element → List Element → List (List Element) →
    List Element → List (List Element)
  | _, cur, lines, [] => lines ++ [cur.mergeSort leX]
  | last, cur, lines, e :: es =>
    if |e.y - last.y| < alignmentThreshold then
      groupWalk e (cur ++ [e]) lines es
    else
      groupWalk e [e] (lines ++ [cur.mergeSort leX]) es

/-- `_group_by_lines`. -/
def groupByLines (ocr : List Element) : List (List Element) :=
  match ocr.mergeSort leY with
  | [] => []
  | e :: rest => groupWalk e [e] [] rest

/-- The hard-coded label keyword list of `_detect_key_value_pairs`. -/
def labelKeywords : List Str :=
  ["invoice".data, "number".data, "date".data, "total".data,
   "subtotal".data, "tax".data, "vat".data, "customer".data, "vendor".data,
   "supplier".data, "amount".data, "due".data, "payment".data,
   "address".data, "phone".data, "email".data, "description".data,
   "quantity".data, "qty".data, "price".data, "unit".data, "discount".data,
   "فاتورة".data, "رقم".data, "تاريخ".data, "المجموع".data,
   "الإجمالي".data, "ضريبة".data, "عميل".data, "مورد".data, "مبلغ".data,
   "دفع".data, "عنوان".data, "هاتف".data, "بريد".data, "وصف".data,
   "كمية".data, "سعر".data, "خصم".data]

/-- A detected key-value pair. -/
structure KVPair where
  label : Str
  value : Str
  label_bbox : List (ℚ × ℚ)
  value_bbox : List (ℚ × ℚ)
  label_confidence : ℚ
  value_confidence : ℚ
  distance : ℚ
deriving DecidableEq, Repr

/-- The candidate values for a label at index `i`: elements to the right,
on the same line, within 0.3, paired with their horizontal distance, in
input order. -/
def kvCandidates (ocr : List Element) (i : Nat) (el : Element) :
    List (ℚ × Element) :=
  ocr.enum.filterMap fun (j, other) =>
    if i = j then none
    else
      let isRight := other.x > el.x
      let isSameLine := |other.y - el.y| < alignmentThreshold
      let isClose := |other.x - el.x| < 0.3
      if isRight ∧ isSameLine ∧ isClose then some (other.x - el.x, other)
      else none

/-- `_detect_key_value_pairs`. -/
def detectKeyValuePairs (ocr : List Element) : List KVPair :=
  ocr.enum.filterMap fun (i, el) =>
    let textLower := pyLower el.text
    let isLabel := labelKeywords.any fun kw => strContains textLower kw
    let hasColon := el.text.contains ':'
    if isLabel ∨ hasColon then
      match (kvCandidates ocr i el).mergeSort
          (fun a b => a.1 ≤ b.1) with
      | [] => none
      | (d, v) :: _ =>
        some { label := el.text, value := v.text, label_bbox := el.bbox,
               value_bbox := v.bbox, label_confidence := el.confidence,
               value_confidence := v.confidence, distance := d }
    else none

/-- Arithmetic mean (`np.mean`; all call sites pass non-empty lists). -/
def mean (qs : List ℚ) : ℚ := qs.sum / qs.length

/-- `round(x, 2)` on the exact rational value: round half to even. -/
def pyRound2 (q : ℚ) : ℚ :=
  let r := q * 100
  let n := ⌊r⌋
  let frac := r - n
  let up : ℤ := if frac > 1/2 then n + 1
    else if frac < 1/2 then n
    else if n % 2 = 0 then n else n + 1
  (up : ℚ) / 100

/-- Append `v` under key `k` in an insertion-ordered association list
(`defaultdict(list)` keyed by `round(x, 2)`). -/
def assocAppend (m : List (ℚ × List ℚ)) (k : ℚ) (v : ℚ) :
    List (ℚ × List ℚ) :=
  if m.any fun e => e.1 = k then
    m.map fun e => if e.1 = k then (e.1, e.2 ++ [v]) else e
  else m ++ [(k, [v])]

/-- A detected table row. -/
structure TableRow where
  elements : List Element
  text : Str
  y_position : ℚ
deriving DecidableEq, Repr

/-- A detected table. -/
structure Table where
  num_rows : Nat
  num_columns : Nat
  column_positions : List ℚ
  rows : List TableRow
deriving DecidableEq, Repr

/-- `' | '.join` of the row texts. -/
def pipeJoin (ts : List Str) : Str := (ts.intersperse " | ".data).flatten

/-- `_detect_tables` on the items-zone elements. -/
def detectTables (items : List Element) : List Table :=
  if items = [] then []
  else
    let lines := groupByLines items
    if lines.length < 2 then []
    else
      let xPositions := lines.foldl (fun m line =>
        line.foldl (fun m el => assocAppend m (pyRound2 el.x) el.x) m) []
      let columnPositions :=
        ((xPositions.filterMap fun e =>
          if (e.2.length : ℚ) ≥ (lines.length : ℚ) * 0.5 then some (mean e.2)
          else none).mergeSort (· ≤ ·))
      let table : Table :=
        { num_rows := lines.length
          num_columns := columnPositions.length
          column_positions := columnPositions
          rows := lines.map fun line =>
            { elements := line
              text := pipeJoin (line.map (·.text))
              y_position := mean (line.map (·.y)) } }
      if table.num_rows > 1 then [table] else []

/-- The result of `LayoutAnalyzer.analyze`. -/
structure LayoutResult where
  zones : ZoneMap
  lines : List (List Element)
  key_value_pairs : List KVPair
  tables : List Table
  all_elements : List Element
deriving DecidableEq, Repr

/-- The empty zone map (`{}` with `.get(…, [])` reads). -/
def emptyZones : ZoneMap :=
  { header := [], vendor := [], items := [], totals := [], footer := [],
    unknown := [] }

/-- `LayoutAnalyzer.analyze`. -/
def analyze (ocr : List Element) : LayoutResult :=
  if ocr = [] then
    { zones := emptyZones, lines := [], key_value_pairs := [], tables := [],
      all_elements := [] }
  else
    let zones := assignToZones ocr
    { zones := zones
      lines := groupByLines ocr
      key_value_pairs := detectKeyValuePairs ocr
      tables := detectTables (zones.get "items".data)
      all_elements := ocr }

/-- `find_elements_near` (only the `'right'` direction is exercised by
the embedded extractors). -/
def findElementsNear (ocr : List Element) (targetText : Str)
    (direction : Str) (maxDistance : ℚ) : List Element :=
  let targetElements := ocr.filter fun el =>
    strContains (pyLower el.text) (pyLower targetText)
  match targetElements with
  | [] => []
  | target :: _ =>
    ocr.filter fun el =>
      el ≠ target ∧
      (if direction = "right".data then
        el.x > target.x ∧ |el.y - target.y| < alignmentThreshold ∧
          el.x - target.x < maxDistance
       else if direction = "left".data then
        el.x < target.x ∧ |el.y - target.y| < alignmentThreshold ∧
          target.x - el.x < maxDistance
       else if direction = "below".data then
        el.y > target.y ∧ |el.x - target.x| < proximityThreshold ∧
          el.y - target.y < maxDistance
       else if direction = "above".data then
        el.y < target.y ∧ |el.x - target.x| < proximityThreshold ∧
          target.y - el.y < maxDistance
       else False)

end OCRPart.Layout




namespace OCRPart.Extract

/-!
## `extraction/field_extractor.py` — the field extractor

Each per-field result dictionary is modelled by a structure whose fields
are the dictionary's keys; a key holding `None` is an `Option` field
holding `none`.  Python-truthiness of the envelopes is noted where the
code branches on it.
-/

open Layout Patterns

/-- Provenance tags (`source` strings of the extractor). -/
inductive Src where
  | keyword_proximity
  | arabic_keyword_proximity
  | pattern (name : Str)
  | key_value_pair
  | keyword_same_element
  | calculated
  | position_heuristic
  | pattern_match
  | pattern_email
  | keyword_match
deriving DecidableEq, Repr

/-- Python truthiness of an optional string value. -/
def pyTruthyStr : Option Str → Bool
  | none => false
  | some s => s ≠ []

/-- Python truthiness of an optional number value. -/
def pyTruthyQ : Option ℚ → Bool
  | none => false
  | some q => q ≠ 0

/-- `re.findall(r'\d+', s)`: the maximal digit runs, left to right. -/
def digitRuns (s : Str) : List Str :=
  let step := fun (acc : List Str × Str) c =>
    if pyIsDigit c then (acc.1, acc.2 ++ [c])
    else if acc.2 = [] then acc else (acc.1 ++ [acc.2], [])
  let r := s.foldl step ([], [])
  if r.2 = [] then r.1 else r.1 ++ [r.2]

/-- `str.zfill(2)`. -/
def zfill2 (s : Str) : Str := if s.length < 2 then '0' :: s else s

/-- `group(1) if match.lastindex else match.group()`. -/
def group1OrWhole (m : Re.MatchRes) (s : Str) : Option Str :=
  if m.lastindex.isSome then m.group 1 s else some (m.group0 s)

/-- `_extract_amount_from_text`: normalize digits, try the number
patterns in order, accept the first cleaned value strictly between 0 and
1 000 000 000. -/
def extractAmountFromText (text : Str) : Option ℚ :=
  let t := normalizeArabicNumbers text
  numberPatterns.findSome? fun p =>
    match Re.search p.2 t with
    | none => none
    | some m =>
      let amountStr := group1OrWhole m t
      let amount := cleanAmountOpt amountStr
      if amount > 0 ∧ amount < 1000000000 then some amount else none

/-- The `month_map` of `_extract_date_from_text`. -/
def monthMap (name : Str) : Str :=
  let k := (pyLower name).take 3
  if k = "jan".data then "01".data else if k = "feb".data then "02".data
  else if k = "mar".data then "03".data else if k = "apr".data then "04".data
  else if k = "may".data then "05".data else if k = "jun".data then "06".data
  else if k = "jul".data then "07".data else if k = "aug".data then "08".data
  else if k = "sep".data then "09".data else if k = "oct".data then "10".data
  else if k = "nov".data then "11".data else if k = "dec".data then "12".data
  else "01".data

/-- `_extract_date_from_text`. -/
def extractDateFromText (text : Str) : Option Str :=
  let t := normalizeArabicNumbers text
  datePatterns.findSome? fun p =>
    match Re.search p.2 t with
    | none => none
    | some m =>
      if p.1 = "iso_date".data then
        let year := (m.group 1 t).getD []
        let month := (m.group 2 t).getD []
        let day := (m.group 3 t).getD []
        some (year ++ "-".data ++ zfill2 month ++ "-".data ++ zfill2 day)
      else if p.1 = "dmy_slash".data ∨ p.1 = "dmy_dash".data then
        let day := (m.group 1 t).getD []
        let month := (m.group 2 t).getD []
        let year := (m.group 3 t).getD []
        some (year ++ "-".data ++ zfill2 month ++ "-".data ++ zfill2 day)
      else if p.1 = "month_name".data then
        let day := (m.group 1 t).getD []
        let monthName := (m.group 2 t).getD []
        let year := (m.group 3 t).getD []
        some (year ++ "-".data ++ monthMap monthName ++ "-".data ++ zfill2 day)
      else if p.1 = "name_month".data then
        let monthName := (m.group 1 t).getD []
        let day := (m.group 2 t).getD []
        let year := (m.group 3 t).getD []
        some (year ++ "-".data ++ monthMap monthName ++ "-".data ++ zfill2 day)
      else if p.1 = "compact_date".data then
        let year := (m.group 1 t).getD []
        let month := (m.group 2 t).getD []
        let day := (m.group 3 t).getD []
        some (year ++ "-".data ++ month ++ "-".data ++ day)
      else
        some (m.group0 t)

/-- `extract_invoice_number` result envelope. -/
structure InvoiceNumberR where
  value : Option Str
  confidence : ℚ
  source : Option Src
  zone : Option Str
deriving DecidableEq, Repr

/-- `extract_invoice_number`. -/
def extractInvoiceNumber (layout : LayoutResult) : InvoiceNumberR :=
  let headerElements := layout.zones.get "header".data
  -- Strategy 1: keyword + nearby value
  let strat1 : Option InvoiceNumberR := headerElements.findSome? fun el =>
    let textLower := pyLower el.text
    let en : Option InvoiceNumberR :=
      invoiceNumberKeywordsEn.findSome? fun kw =>
        if strContains textLower kw then
          (findElementsNear headerElements el.text "right".data 0.4).findSome?
            fun near =>
              invoiceNumberPatterns.findSome? fun p =>
                (Re.search p.2 near.text).map fun m =>
                  { value := (group1OrWhole m near.text).map pyStrip
                    confidence := (el.confidence + near.confidence) / 2
                    source := some .keyword_proximity
                    zone := some "header".data }
        else none
    match en with
    | some r => some r
    | none =>
      invoiceNumberKeywordsAr.findSome? fun kw =>
        if strContains el.text kw then
          (findElementsNear headerElements el.text "right".data 0.4).findSome?
            fun near =>
              match digitRuns near.text with
              | n :: _ =>
                if n.length ≥ 4 then
                  some { value := some n
                         confidence := (el.confidence + near.confidence) / 2
                         source := some .arabic_keyword_proximity
                         zone := some "header".data }
                else none
              | [] => none
        else none
  match strat1 with
  | some r => r
  | none =>
    -- Strategy 2: pattern matching on all header text (skip `sequential`)
    let strat2 : Option InvoiceNumberR := headerElements.findSome? fun el =>
      invoiceNumberPatterns.findSome? fun p =>
        if p.1 = "sequential".data then none
        else
          (Re.search p.2 el.text).map fun m =>
            { value := (group1OrWhole m el.text).map pyStrip
              confidence := el.confidence
              source := some (.pattern p.1)
              zone := some "header".data }
    match strat2 with
    | some r => r
    | none =>
      -- Strategy 3: key-value pairs
      let strat3 : Option InvoiceNumberR :=
        layout.key_value_pairs.findSome? fun pair =>
          if invoiceNumberKeywordsEn.any
              (fun kw => strContains (pyLower pair.label) kw) then
            some { value := some pair.value
                   confidence := pair.value_confidence
                   source := some .key_value_pair
                   zone := some "header".data }
          else none
      match strat3 with
      | some r => r
      | none =>
        { value := none, confidence := 0, source := none, zone := none }

/-- A date envelope (`{'value': …, 'confidence': …}` with an optional
`source`). -/
structure DateR where
  value : Option Str
  confidence : ℚ
  source : Option Src
deriving DecidableEq, Repr

/-- The `dates` result of `extract_dates`. -/
structure DatesR where
  invoice_date : DateR
  due_date : DateR
  other_dates : List Str
deriving DecidableEq, Repr

/-- The invoice-date keyword list hard-coded in `extract_dates`. -/
def invDateKeywords : List Str :=
  ["invoice date".data, "issue date".data, "date".data, "dated".data,
   "تاريخ الفاتورة".data, "تاريخ".data]

/-- The due-date keyword list hard-coded in `extract_dates`. -/
def dueDateKeywords : List Str :=
  ["due date".data, "payment date".data, "due".data,
   "تاريخ الاستحقاق".data]

/-- `extract_dates`. -/
def extractDates (layout : LayoutResult) : DatesR :=
  let searchElements :=
    layout.zones.get "header".data ++ layout.zones.get "vendor".data
  let init : DatesR :=
    { invoice_date := { value := none, confidence := 0, source := none }
      due_date := { value := none, confidence := 0, source := none }
      other_dates := [] }
  -- Strategy 1: keyword-based extraction
  let afterS1 := searchElements.foldl (fun dates el =>
    let textLower := pyLower el.text
    let isInvoiceDate := invDateKeywords.any fun kw => strContains textLower kw
    let isDueDate := dueDateKeywords.any fun kw => strContains textLower kw
    if isInvoiceDate ∨ isDueDate then
      let dateValue :=
        match extractDateFromText el.text with
        | some dv => some dv
        | none =>
          (findElementsNear searchElements el.text "right".data 0.3).findSome?
            fun near => extractDateFromText near.text
      match dateValue with
      | some dv =>
        let dateDict : DateR :=
          { value := some dv, confidence := el.confidence
            source := some .keyword_proximity }
        if isDueDate then { dates with due_date := dateDict }
        else if isInvoiceDate ∧ ¬ pyTruthyStr dates.invoice_date.value then
          { dates with invoice_date := dateDict }
        else dates
      | none => dates
    else dates) init
  -- Strategy 2: first pattern hit anywhere in header+vendor
  let afterS2 :=
    if ¬ pyTruthyStr afterS1.invoice_date.value then
      match searchElements.findSome? (fun el =>
          (extractDateFromText el.text).map fun dv => (dv, el.confidence)) with
      | some (dv, c) =>
        { afterS1 with invoice_date :=
            { value := some dv, confidence := c, source := some .pattern_match } }
      | none => afterS1
    else afterS1
  -- Strategy 3: key-value pairs
  layout.key_value_pairs.foldl (fun dates pair =>
    let labelLower := pyLower pair.label
    if strContains labelLower "date".data ∨
        strContains pair.label "تاريخ".data then
      match extractDateFromText pair.value with
      | some dv =>
        if strContains labelLower "due".data ∨
            strContains pair.label "استحقاق".data then
          { dates with due_date :=
              { value := some dv, confidence := pair.value_confidence
                source := some .key_value_pair } }
        else if ¬ pyTruthyStr dates.invoice_date.value then
          { dates with invoice_date :=
              { value := some dv, confidence := pair.value_confidence
                source := some .key_value_pair } }
        else dates
      | none => dates
    else dates) afterS2

/-- An amount envelope. -/
structure AmountR where
  value : Option ℚ
  confidence : ℚ
  source : Option Src
  zone : Option Str
deriving DecidableEq, Repr

/-- The `amounts` result of `extract_amounts`. -/
structure AmountsR where
  total : AmountR
  subtotal : AmountR
  tax : AmountR
  discount : AmountR
deriving DecidableEq, Repr

/-- The four amount types, in the loop order of `extract_amounts`. -/
inductive AmtType where
  | total | subtotal | tax | discount
deriving DecidableEq, Repr

/-- Field read for an amount type. -/
def AmountsR.get : AmountsR → AmtType → AmountR
  | a, .total => a.total
  | a, .subtotal => a.subtotal
  | a, .tax => a.tax
  | a, .discount => a.discount

/-- Field write for an amount type. -/
def AmountsR.set : AmountsR → AmtType → AmountR → AmountsR
  | a, .total, v => { a with total := v }
  | a, .subtotal, v => { a with subtotal := v }
  | a, .tax, v => { a with tax := v }
  | a, .discount, v => { a with discount := v }

/-- `amount_types`: type tag with its keyword list (English ++ Arabic). -/
def amountTypes : List (AmtType × List Str) :=
  [(.total, totalKeywords), (.subtotal, subtotalKeywords),
   (.tax, taxKeywords), (.discount, discountKeywords)]

/-- One element step of strategy 1 of `extract_amounts` for a fixed
amount type: if the element contains one of the type's keywords, parse an
amount from the element itself (`keyword_same_element`) or from the
nearest right-hand elements (`keyword_proximity`), overwriting the stored
envelope on success. -/
def amountStep (totalsElements : List Element) (keywords : List Str)
    (cur : AmountR) (el : Element) : AmountR :=
  let textLower := pyLower el.text
  if keywords.any (fun kw =>
      strContains textLower kw ∨ strContains el.text kw) then
    match extractAmountFromText el.text with
    | some amount =>
      { value := some amount, confidence := el.confidence
        source := some .keyword_same_element, zone := some "totals".data }
    | none =>
      match (findElementsNear totalsElements el.text "right".data 0.4).findSome?
          (fun near => (extractAmountFromText near.text).map fun a =>
            (a, near.confidence)) with
      | some (a, nearConf) =>
        { value := some a, confidence := (el.confidence + nearConf) / 2
          source := some .keyword_proximity, zone := some "totals".data }
      | none => cur
  else cur

/-- The envelope that a single totals-zone element writes in strategy 1
of `extract_amounts` (the body of `amountStep` with the accumulator
factored out): `none` when the element contains no keyword of the type
or no amount parses from it or from the nearby elements to its right. -/
def elemOutcome (totalsElements : List Element) (keywords : List Str)
    (el : Element) : Option AmountR :=
  let textLower := pyLower el.text
  if keywords.any (fun kw =>
      strContains textLower kw ∨ strContains el.text kw) then
    match extractAmountFromText el.text with
    | some amount =>
      some { value := some amount, confidence := el.confidence
             source := some .keyword_same_element, zone := some "totals".data }
    | none =>
      match (findElementsNear totalsElements el.text "right".data 0.4).findSome?
          (fun near => (extractAmountFromText near.text).map fun a =>
            (a, near.confidence)) with
      | some (a, nearConf) =>
        some { value := some a, confidence := (el.confidence + nearConf) / 2
               source := some .keyword_proximity, zone := some "totals".data }
      | none => none
  else none

/-- The initial `amounts` dict of `extract_amounts`: four zero-value
envelopes. -/
def amountsInit : AmountsR :=
  { total := { value := none, confidence := 0, source := none, zone := none }
    subtotal := { value := none, confidence := 0, source := none, zone := none }
    tax := { value := none, confidence := 0, source := none, zone := none }
    discount :=
      { value := none, confidence := 0, source := none, zone := none } }

/-- Strategy 1 of `extract_amounts`: for each amount type in order, walk
the totals-zone elements and run `amountStep` on each. -/
def amountsS1 (totalsElements : List Element) : AmountsR :=
  amountTypes.foldl (fun amounts ty =>
    amounts.set ty.1 (totalsElements.foldl
      (fun cur el => amountStep totalsElements ty.2 cur el)
      (amounts.get ty.1))) amountsInit

/-- Strategy 2 of `extract_amounts`: when total and tax are truthy and
subtotal is not, fill subtotal with their positive difference. -/
def amountsS2 (afterS1 : AmountsR) : AmountsR :=
  if pyTruthyQ afterS1.total.value ∧ pyTruthyQ afterS1.tax.value ∧
      ¬ pyTruthyQ afterS1.subtotal.value then
    let calculatedSubtotal :=
      (afterS1.total.value.getD 0) - (afterS1.tax.value.getD 0)
    if calculatedSubtotal > 0 then
      { afterS1 with subtotal :=
          { value := some calculatedSubtotal
            confidence := min afterS1.total.confidence afterS1.tax.confidence
            source := some .calculated, zone := some "totals".data } }
    else afterS1
  else afterS1

/-- One amount-type step of strategy 3 of `extract_amounts` for a fixed
key-value pair: a keyword match on the label fills the type's envelope
from the pair's value, but only when the stored value is not truthy. -/
def amountsS3Step (pair : KVPair) (amounts : AmountsR)
    (ty : AmtType × List Str) : AmountsR :=
  let labelLower := pyLower pair.label
  if ty.2.any (fun kw =>
      strContains labelLower kw ∨ strContains pair.label kw) then
    if ¬ pyTruthyQ (amounts.get ty.1).value then
      match extractAmountFromText pair.value with
      | some a =>
        amounts.set ty.1
          { value := some a, confidence := pair.value_confidence
            source := some .key_value_pair, zone := some "totals".data }
      | none => amounts
    else amounts
  else amounts

/-- Strategy 3 of `extract_amounts`: the key-value-pair pass. -/
def amountsS3 (pairs : List KVPair) (a : AmountsR) : AmountsR :=
  pairs.foldl (fun amounts pair =>
    amountTypes.foldl (amountsS3Step pair) amounts) a

/-- `extract_amounts`: strategy 1 (keyword + nearby amount in the totals
zone), then strategy 2 (derive a missing subtotal), then strategy 3
(key-value pairs for still-missing amounts). -/
def extractAmounts (layout : LayoutResult) : AmountsR :=
  amountsS3 layout.key_value_pairs
    (amountsS2 (amountsS1 (layout.zones.get "totals".data)))

/-- A generic string field envelope. -/
structure StrFieldR where
  value : Option Str
  confidence : ℚ
  source : Option Src
deriving DecidableEq, Repr

/-- A numeric field envelope. -/
structure NumFieldR where
  value : Option ℚ
  confidence : ℚ
  source : Option Src
deriving DecidableEq, Repr

/-- The `tax_info` result. -/
structure TaxInfoR where
  tax_id : StrFieldR
  tax_percentage : NumFieldR
deriving DecidableEq, Repr

/-- `extract_tax_info`: scans all elements; each later match overwrites
(no break in the element loop). -/
def extractTaxInfo (ocr : List Element) : TaxInfoR :=
  let init : TaxInfoR :=
    { tax_id := { value := none, confidence := 0, source := none }
      tax_percentage := { value := none, confidence := 0, source := none } }
  ocr.foldl (fun info el =>
    let info :=
      match Re.search Patterns.taxId el.text with
      | some m =>
        { info with tax_id :=
            { value := m.group 1 el.text, confidence := el.confidence
              source := some (.pattern "tax_id".data) } }
      | none => info
    match Re.search Patterns.taxPercentage el.text with
    | some m =>
      { info with tax_percentage :=
          { value := (m.group 1 el.text).bind pyFloat
            confidence := el.confidence
            source := some (.pattern "tax_percentage".data) } }
    | none => info) init

/-- The address envelope (`{'value': [], 'confidence': 0.0}`). -/
structure AddrR where
  value : List Str
  confidence : ℚ
deriving DecidableEq, Repr

/-- The `vendor_info` result. -/
structure VendorR where
  name : StrFieldR
  address : AddrR
  phone : StrFieldR
  email : StrFieldR
deriving DecidableEq, Repr

/-- `text.replace('-', '').replace('/', '').isdigit()`. -/
def strippedIsDigit (s : Str) : Bool :=
  let t := removeChar (removeChar s '-') '/'
  t ≠ [] ∧ t.all pyIsDigit

/-- `extract_vendor_info`. -/
def extractVendorInfo (layout : LayoutResult) : VendorR :=
  let searchElements :=
    layout.zones.get "header".data ++ layout.zones.get "vendor".data
  let init : VendorR :=
    { name := { value := none, confidence := 0, source := none }
      address := { value := [], confidence := 0 }
      phone := { value := none, confidence := 0, source := none }
      email := { value := none, confidence := 0, source := none } }
  -- phone: inner pattern loop breaks, outer element loop continues
  -- (later matching elements overwrite)
  let withPhone := searchElements.foldl (fun v el =>
    match Patterns.phonePatterns.findSome? (fun p =>
        (Re.search p.2 el.text).map fun m => (p.1, m)) with
    | some (pname, m) =>
      { v with phone :=
          { value := some (m.group0 el.text), confidence := el.confidence
            source := some (.pattern pname) } }
    | none => v) init
  -- email: the element loop breaks on the first match
  let withEmail :=
    match searchElements.findSome? (fun el =>
        (Re.search Patterns.emailPattern el.text).map fun m =>
          (m.group0 el.text, el.confidence)) with
    | some (e, c) =>
      { withPhone with email :=
          { value := some e, confidence := c, source := some .pattern_email } }
    | none => withPhone
  -- company name: first of the first five elements that is long enough,
  -- not digit-like, and matches no date pattern
  match (searchElements.take 5).findSome? (fun el =>
      let text := pyStrip el.text
      if text.length > 3 ∧ ¬ strippedIsDigit text then
        if ¬ Patterns.datePatterns.any
            (fun p => (Re.search p.2 text).isSome) then
          some (text, el.confidence)
        else none
      else none) with
  | some (t, c) =>
    { withEmail with name :=
        { value := some t, confidence := c
          source := some .position_heuristic } }
  | none => withEmail

/-- The `customer_info` result. -/
structure CustomerR where
  name : StrFieldR
  address : AddrR
deriving DecidableEq, Repr

/-- `extract_customer_info`: the first vendor-zone element containing a
customer keyword; the value is the following element (if any). -/
def extractCustomerInfo (layout : LayoutResult) : CustomerR :=
  let vendorElements := layout.zones.get "vendor".data
  let init : CustomerR :=
    { name := { value := none, confidence := 0, source := none }
      address := { value := [], confidence := 0 } }
  match vendorElements.enum.find? (fun (_, el) =>
      Patterns.customerKeywords.any fun kw =>
        strContains (pyLower el.text) kw) with
  | some (i, _) =>
    match vendorElements[i+1]? with
    | some nxt =>
      { init with name :=
          { value := some nxt.text, confidence := nxt.confidence
            source := some .keyword_proximity } }
    | none => init
  | none => init

/-- One extracted line item. -/
structure LineItem where
  description : Str
  quantity : Option ℤ
  unit_price : Option ℚ
  amount : Option ℚ
  confidence : ℚ
deriving DecidableEq, Repr

/-- `re.match(r'^\d+$', s)` as a Bool. -/
def isPureDigits (s : Str) : Bool :=
  (Re.matchStart (Re.seq [.bos, Re.plus Re.dig, .eos]) s).isSome

/-- `extract_line_items`: only the first table, rows with ≥ 2 elements;
description from the first cell, amount from the last, quantity from the
first purely numeric middle cell. -/
def extractLineItems (layout : LayoutResult) : List LineItem :=
  match layout.tables with
  | [] => []
  | table :: _ =>
    table.rows.filterMap fun row =>
      let rowElements := row.elements
      if rowElements.length < 2 then none
      else
        let item0 : LineItem :=
          { description := [], quantity := none, unit_price := none,
            amount := none, confidence := 0 }
        let item1 :=
          match rowElements.head? with
          | some e =>
            { item0 with description := e.text, confidence := e.confidence }
          | none => item0
        let item2 :=
          match rowElements.getLast? with
          | some lastEl =>
            match extractAmountFromText lastEl.text with
            | some a => { item1 with amount := some a }
            | none => item1
          | none => item1
        let item3 :=
          if rowElements.length ≥ 3 then
            match (rowElements.drop 1 |>.dropLast).find? (fun el =>
                isPureDigits (pyStrip el.text)) with
            | some el =>
              { item2 with quantity := some (pyIntDigits (pyStrip el.text)) }
            | none => item2
          else item2
        some item3

/-- The `currency` result. -/
structure CurrencyR where
  value : Option Str
  confidence : ℚ
  source : Option Src
deriving DecidableEq, Repr

/-- `' '.join` of the element texts. -/
def spaceJoin (ts : List Str) : Str := (ts.intersperse " ".data).flatten

/-- `extract_currency`. -/
def extractCurrency (ocr : List Element) : CurrencyR :=
  let fullText := spaceJoin (ocr.map (·.text))
  { value := some (Patterns.findCurrency fullText), confidence := 0.8
    source := some .pattern_match }

/-- The `payment_terms` result. -/
structure PaymentR where
  value : Option Str
  confidence : ℚ
  source : Option Src
deriving DecidableEq, Repr

/-- The payment keyword list hard-coded in `extract_payment_terms`. -/
def paymentKeywords : List Str :=
  ["payment".data, "terms".data, "net".data, "due".data, "days".data,
   "شروط الدفع".data]

/-- `extract_payment_terms`: first footer element containing a payment
keyword. -/
def extractPaymentTerms (layout : LayoutResult) : PaymentR :=
  let footerElements := layout.zones.get "footer".data
  match footerElements.find? (fun el =>
      paymentKeywords.any fun kw => strContains (pyLower el.text) kw) with
  | some el =>
    { value := some el.text, confidence := el.confidence
      source := some .keyword_match }
  | none => { value := none, confidence := 0, source := none }

/-- `metadata`. -/
structure MetadataR where
  extraction_confidence : ℚ
  fields_extracted : Nat
  total_fields : Nat
deriving DecidableEq, Repr

/-- The full extraction result. -/
structure ExtractedData where
  invoice_number : InvoiceNumberR
  dates : DatesR
  amounts : AmountsR
  tax_info : TaxInfoR
  vendor_info : VendorR
  customer_info : CustomerR
  line_items : List LineItem
  currency : CurrencyR
  payment_terms : PaymentR
  metadata : MetadataR
deriving DecidableEq, Repr

/-- `_calculate_overall_confidence`: the mean of every `confidence` found
at the top level or one level down.  In dictionary iteration order this
flat scan finds: `invoice_number` (direct), `dates.invoice_date`,
`dates.due_date` (`other_dates` is a list and is skipped), the four
`amounts`, the two `tax_info` fields, the four `vendor_info` fields, the
two `customer_info` fields, `currency` and `payment_terms` (direct);
`line_items` is a list, not a dict, and contributes nothing. -/
def overallConfidenceList (inv : InvoiceNumberR) (dts : DatesR)
    (amts : AmountsR) (tax : TaxInfoR) (ven : VendorR) (cust : CustomerR)
    (cur : CurrencyR) (pay : PaymentR) : List ℚ :=
  [inv.confidence,
   dts.invoice_date.confidence, dts.due_date.confidence,
   amts.total.confidence, amts.subtotal.confidence, amts.tax.confidence,
   amts.discount.confidence,
   tax.tax_id.confidence, tax.tax_percentage.confidence,
   ven.name.confidence, ven.address.confidence, ven.phone.confidence,
   ven.email.confidence,
   cust.name.confidence, cust.address.confidence,
   cur.confidence, pay.confidence]

/-- `extract_all_fields` (layout computed internally, as when no
pre-computed layout is supplied).  `fields_extracted` counts the
Python-truthy values among the nine extracted fields: every per-field
dict literal is non-empty (hence truthy and `!= {}`) whether or not a
value was found; `line_items` is the only list-valued field and is
truthy exactly when non-empty. -/
def extractAllFields (ocr : List Element) : ExtractedData :=
  let layout := Layout.analyze ocr
  let inv := extractInvoiceNumber layout
  let dts := extractDates layout
  let amts := extractAmounts layout
  let tax := extractTaxInfo ocr
  let ven := extractVendorInfo layout
  let cust := extractCustomerInfo layout
  let items := extractLineItems layout
  let cur := extractCurrency ocr
  let pay := extractPaymentTerms layout
  let confs := overallConfidenceList inv dts amts tax ven cust cur pay
  { invoice_number := inv
    dates := dts
    amounts := amts
    tax_info := tax
    vendor_info := ven
    customer_info := cust
    line_items := items
    currency := cur
    payment_terms := pay
    metadata :=
      { extraction_confidence := if confs = [] then 0 else mean confs
        fields_extracted :=
          ([true, true, true, true, true, true, items ≠ [], true,
            true].count true)
        total_fields := 9 } }

end OCRPart.Extract

namespace OCRPart.Simple

/-!
## `extraction/simple_extractor.py` — the simplified extractor

Only the members relevant to the claims are embedded: the keyword lists,
`_parse_amount` and `_extract_total`.  `_extract_total`'s fallback can
evaluate `max([])`, which raises `ValueError`; the function is therefore
modelled in `Except String` with the error carrying Python's message.
-/

open Layout

/-- The `total_keywords` list of `SimpleExtractor.__init__`. -/
def totalKeywordsS : List Str :=
  ["total".data, "grand total".data, "net total".data, "amount due".data,
   "المجموع".data, "الإجمالي".data, "المبلغ".data, "الكلي".data,
   "المطلوب".data, "المبلغ المستحق".data, "الصافي".data]

/-- `amount_pattern`: `\b\d{1,3}(?:[,\s]\d{3})*(?:[.,]\d{2})?\b`. -/
def amountPatternS : Re.RE :=
  Re.seq [.wb, Re.repB Re.dig 1 3,
    Re.star (Re.seq [.cls (fun c => c = ',' ∨ pyIsSpace c), Re.repB Re.dig 3 3]),
    .opt (Re.seq [Re.oneOf ",.".data, Re.repB Re.dig 2 2]), .wb]

/-- The currency-stripping class `[EGP$£€¥₹₪﷼]`, `re.IGNORECASE`. -/
def currencyClassS : Re.RE :=
  .cls fun c => "egp$£€¥₹₪﷼".data.contains (pyLowerChar c)

/-- `_parse_amount`. -/
def parseAmount (text : Str) : Option ℚ :=
  let t := pyStrip text
  let t := Re.subEmpty currencyClassS t
  let t := pyStrip t
  match Re.search amountPatternS t with
  | none => none
  | some m =>
    let amountStr := m.group0 t
    let amountStr := removeChar (removeChar amountStr ' ') ','
    -- European-format branch of the source (unreachable: all commas were
    -- just removed, but kept for fidelity)
    let amountStr :=
      if amountStr.contains '.' ∧ amountStr.contains ',' then
        let lastComma := amountStr.length - 1 - (amountStr.reverse.indexOf ',')
        let lastDot := amountStr.length - 1 - (amountStr.reverse.indexOf '.')
        if lastComma > lastDot then
          replaceChar (removeChar amountStr '.') ',' '.'
        else removeChar amountStr ','
      else amountStr
    pyFloat amountStr

/-- Descending stable order on `(conf, amount)` pairs
(`sorted(…, key=lambda x: (x['conf'], x['amount']), reverse=True)`). -/
def confAmountGe (a b : ℚ × ℚ) : Bool :=
  b.1 < a.1 ∨ (b.1 = a.1 ∧ b.2 ≤ a.2)

/-- `_extract_total`.  The result is `Except`: `.error` models the
`ValueError` that `max([])` raises when some amount parses but none lies
in the exclusive range `(0.5, 50000)`. -/
def extractTotal (ocr : List Element) : Except String (Option ℚ) :=
  let candidates := (ocr.enum.map fun (i, el) =>
    let text := pyLower el.text
    if totalKeywordsS.any (fun kw => strContains text kw) then
      -- window positions max(0, i-1) … min(len, i+5)-1
      ((List.range ocr.length).filter fun j => i - 1 ≤ j ∧ j < i + 5).filterMap
        fun j =>
          match ocr[j]? with
          | some elj =>
            match parseAmount elj.text with
            | some amount =>
              if amount ≠ 0 then
                some (if elj.text.contains '.' then ((1 : ℚ), amount)
                      else ((0.6 : ℚ), amount))
              else none
            | none => none
          | none => none
    else []).flatten
  if candidates ≠ [] then
    match candidates.mergeSort confAmountGe with
    | best :: _ => .ok (some best.2)
    | [] => .ok none
  else
    let allVals := ocr.filterMap fun e =>
      match parseAmount e.text with
      | some v => if v ≠ 0 then some v else none
      | none => none
    if allVals ≠ [] then
      let inRange := allVals.filter fun v => 0.5 < v ∧ v < 50000
      match inRange.max? with
      | some mx => .ok (some mx)
      | none => .error "max() arg is an empty sequence"
    else .ok none

end OCRPart.Simple

namespace OCRPart.Valid

/-!
## `validation/validator.py` — the invoice validator

The extracted-fields input is the typed `Extract.ExtractedData` model.
`datetime.now()` is a parameter `now : ℚ`, measured in days as a
proleptic-Gregorian ordinal plus a time-of-day fraction (`datetime`
comparisons between midnights and `now ± timedelta(days=…)` are order
isomorphic to this encoding).  Message and fix strings are inductive
constructors carrying the data Python interpolates.
-/

open Extract

/-- Result severities. -/
inductive Severity where
  | error | warning | info
deriving DecidableEq, Repr

/-- Validation messages, one constructor per message site, carrying the
interpolated values. -/
inductive Msg where
  | requiredMissing (path : Str)
  | requiredPresent (path : Str)
  | invNumMissing
  | invNumTooShort (v : Str)
  | invNumLowConf (c : ℚ)
  | invNumValidated (v : Str)
  | invalidDateFormat (v : Str)
  | dateVeryOld (v : Str)
  | dateFarFuture (v : Str)
  | dateFarFutureWarn (v : Str)
  | invoiceDateValidated (v : Str)
  | dueBeforeInvoice (due inv : Str)
  | dueDateValidated (v : Str)
  | totalTooSmall (t lim : ℚ)
  | totalTooLarge (t lim : ℚ)
  | totalValidated (t : ℚ)
  | subtotalGreater (s t : ℚ)
  | taxNegative (x : ℚ)
  | taxRateTooHigh (pct : ℚ)
  | discountNegative (d : ℚ)
  | amountsDontAddUp (s x t diff : ℚ)
  | amountsConsistent
  | taxPctMismatch (pct : ℚ)
  | currencyMissing
  | currencyUnusual (v : Str)
  | currencyValidated (v : Str)
  | vendorNameMissing
  | emailInvalid (v : Str)
  | phoneIncomplete (v : Str)
  | noLineItems
  | itemsSubtotalMismatch (itemsTotal s : ℚ)
  | itemsTotalDiffer (itemsTotal t : ℚ)
  | itemsFound (n : Nat)
  | confVeryLow (c : ℚ)
  | confLow (c : ℚ)
  | confModerate (c : ℚ)
  | confGood (c : ℚ)
  | vendorCustomerSame
deriving DecidableEq, Repr

/-- Suggested fixes, one constructor per fix string. -/
inductive Fix where
  | checkOcrQuality
  | checkHeaderZone
  | verifyCompleteInvNum
  | manualVerification
  | checkDatePatterns
  | verifyYearExtracted
  | checkDateExtractionErrors
  | verifyCorrect
  | verifyCurrentInvoice
  | checkWhichDate
  | checkAmountExtraction
  | verifyAmountCorrect
  | checkAmountsExtracted
  | checkTaxExtraction
  | verifyTaxAmount
  | checkMeantPositive
  | expectedTotal (q : ℚ)
  | expectedTax (expected got : ℚ)
  | defaultUSD
  | verifyCurrency
  | checkHeaderVendorZone
  | verifyEmailExtraction
  | verifyPhoneExtraction
  | checkTableStructure
  | checkLineItemExtraction
  | normalTaxDiscount
  | imageQualityPoor
  | checkParties
deriving DecidableEq, Repr

/-- `ValidationResult`. -/
structure VR where
  field : Str
  is_valid : Bool
  severity : Severity
  message : Msg
  suggested_fix : Option Fix
deriving DecidableEq, Repr

/-- The dot-paths handled by `_get_nested_value` for the configured
field lists. -/
inductive Path where
  | invoice_number
  | dates_invoice_date
  | dates_due_date
  | amounts_total
  | amounts_subtotal
  | amounts_tax
  | currency
  | vendor_name
  | customer_name
deriving DecidableEq, Repr

/-- The dot-path string of a `Path`. -/
def Path.str : Path → Str
  | .invoice_number => "invoice_number".data
  | .dates_invoice_date => "dates.invoice_date".data
  | .dates_due_date => "dates.due_date".data
  | .amounts_total => "amounts.total".data
  | .amounts_subtotal => "amounts.subtotal".data
  | .amounts_tax => "amounts.tax".data
  | .currency => "currency".data
  | .vendor_name => "vendor_info.name".data
  | .customer_name => "customer_info.name".data

/-- Validator configuration (the knobs `_default_config` populates). -/
structure Config where
  required_fields : List Path
  min_year : Nat
  max_year : Nat
  max_future_days : Nat
  max_past_years : Nat
  min_total : ℚ
  max_total : ℚ
  max_tax_percentage : ℚ
  tax_tolerance : ℚ
  conf_minimum : ℚ
  conf_warning : ℚ
  conf_good : ℚ
deriving DecidableEq, Repr

/-- `_default_config`. -/
def defaultConfig : Config :=
  { required_fields :=
      [.invoice_number, .dates_invoice_date, .amounts_total, .currency]
    min_year := 2000
    max_year := 2030
    max_future_days := 90
    max_past_years := 10
    min_total := 0.01
    max_total := 10000000
    max_tax_percentage := 30.0
    tax_tolerance := 0.02
    conf_minimum := 0.5
    conf_warning := 0.7
    conf_good := 0.85 }

/-- `_get_nested_value(data, path)` followed by the required-field
emptiness test (`value is None or value == '' or value == {}`). -/
def pathPresent (d : ExtractedData) : Path → Bool
  | .invoice_number => pyPresentStr d.invoice_number.value
  | .dates_invoice_date => pyPresentStr d.dates.invoice_date.value
  | .dates_due_date => pyPresentStr d.dates.due_date.value
  | .amounts_total => d.amounts.total.value.isSome
  | .amounts_subtotal => d.amounts.subtotal.value.isSome
  | .amounts_tax => d.amounts.tax.value.isSome
  | .currency => pyPresentStr d.currency.value
  | .vendor_name => pyPresentStr d.vendor_info.name.value
  | .customer_name => pyPresentStr d.customer_info.name.value
where
  /-- A string value is "present" unless it is `None` or `''`. -/
  pyPresentStr : Option Str → Bool
    | none => false
    | some s => s ≠ []

/-- Gregorian leap year. -/
def isLeap (y : Nat) : Bool := y % 4 = 0 ∧ (y % 100 ≠ 0 ∨ y % 400 = 0)

/-- Days in a month. -/
def daysInMonth (y m : Nat) : Nat :=
  if m = 2 then (if isLeap y then 29 else 28)
  else if m = 4 ∨ m = 6 ∨ m = 9 ∨ m = 11 then 30
  else 31

/-- Days before the given month in the given year. -/
def daysBeforeMonth (y m : Nat) : Nat :=
  ((List.range m).filter (fun k => 1 ≤ k)).foldl
    (fun acc k => acc + daysInMonth y k) 0

/-- `datetime.toordinal()`: proleptic-Gregorian day number of
`(y, m, d)`, with day 1 = 0001-01-01. -/
def toOrdinal (y m d : Nat) : ℤ :=
  (365 * (y - 1) + (y - 1) / 4 - (y - 1) / 100 + (y - 1) / 400
    + daysBeforeMonth y m + d : Nat)

/-- `datetime.strptime(s, '%Y-%m-%d')`: exactly four digits, a dash, a
one-or-two-digit month in 1–12, a dash, a one-or-two-digit day in 1–31,
nothing left over; then the `datetime` constructor checks the calendar
(day within the month, year ≥ 1). -/
def parseYMD (s : Str) : Option (Nat × Nat × Nat) :=
  let ys := s.take 4
  let rest := s.drop 4
  if ys.length = 4 ∧ ys.all pyIsDigit then
    match rest with
    | '-' :: r1 =>
      -- month: `1[0-2] | 0[1-9] | [1-9]` (first alternative that lets the
      -- rest of the format match)
      let tryTail := fun (mv : Nat) (r : Str) =>
        match r with
        | '-' :: r2 =>
          -- day: `3[01] | [1-2]\d | 0[1-9] | [1-9]`
          let finish := fun (dv : Nat) (r3 : Str) =>
            if r3 = [] then some (mv, dv) else none
          (match r2 with
           | a :: b :: r3 =>
             if a = '3' ∧ (b = '0' ∨ b = '1') then
               finish (30 + digitVal b) r3
             else if (a = '1' ∨ a = '2') ∧ pyIsDigit b then
               finish (digitVal a * 10 + digitVal b) r3
             else if a = '0' ∧ ('1' ≤ b ∧ b ≤ '9') then
               finish (digitVal b) r3
             else if '1' ≤ a ∧ a ≤ '9' then
               finish (digitVal a) (b :: r3)
             else none
           | [a] =>
             if '1' ≤ a ∧ a ≤ '9' then finish (digitVal a) [] else none
           | [] => none)
        | _ => none
      let md :=
        match r1 with
        | a :: b :: r2 =>
          (if a = '1' ∧ (b = '0' ∨ b = '1' ∨ b = '2') then
            tryTail (10 + digitVal b) r2
          else none).orElse fun _ =>
          (if a = '0' ∧ ('1' ≤ b ∧ b ≤ '9') then
            tryTail (digitVal b) r2
          else none).orElse fun _ =>
          (if '1' ≤ a ∧ a ≤ '9' then tryTail (digitVal a) (b :: r2)
          else none)
        | [_] => none
        | [] => none
      match md with
      | some (mv, dv) =>
        let yv := runVal ys
        if 1 ≤ yv ∧ dv ≤ daysInMonth yv mv then some (yv, mv, dv) else none
      | none => none
    | _ => none
  else none

/-- `_validate_date_format` as a Bool. -/
def validDateFormat (s : Str) : Bool := (parseYMD s).isSome

/-- `_validate_required_fields`. -/
def validateRequiredFields (cfg : Config) (d : ExtractedData)
    (acc : List VR) : List VR :=
  acc ++ cfg.required_fields.map fun p =>
    if ¬ pathPresent d p then
      { field := p.str, is_valid := false, severity := .error
        message := .requiredMissing p.str
        suggested_fix := some .checkOcrQuality }
    else
      { field := p.str, is_valid := true, severity := .info
        message := .requiredPresent p.str, suggested_fix := none }

/-- `_validate_invoice_number`. -/
def validateInvoiceNumber (cfg : Config) (inv : InvoiceNumberR)
    (acc : List VR) : List VR :=
  if ¬ pyTruthyStr inv.value then
    acc ++ [{ field := "invoice_number".data, is_valid := false
              severity := .error, message := .invNumMissing
              suggested_fix := some .checkHeaderZone }]
  else
    let v := inv.value.getD []
    let shortPart : List VR :=
      if v.length < 3 then
        [{ field := "invoice_number".data, is_valid := false
           severity := .warning, message := .invNumTooShort v
           suggested_fix := some .verifyCompleteInvNum }]
      else []
    let confPart : List VR :=
      if inv.confidence < cfg.conf_warning then
        [{ field := "invoice_number".data, is_valid := true
           severity := .warning, message := .invNumLowConf inv.confidence
           suggested_fix := some .manualVerification }]
      else
        [{ field := "invoice_number".data, is_valid := true
           severity := .info, message := .invNumValidated v
           suggested_fix := none }]
    acc ++ shortPart ++ confPart

/-- The invoice-date block of `_validate_dates`. -/
def validateDatesInvoice (cfg : Config) (now : ℚ) (dates : DatesR)
    (acc : List VR) : List VR :=
  let invVal := dates.invoice_date.value
  if pyTruthyStr invVal then
      let v := invVal.getD []
      match parseYMD v with
      | none =>
        acc ++ [{ field := "dates.invoice_date".data, is_valid := false
                  severity := .error, message := .invalidDateFormat v
                  suggested_fix := some .checkDatePatterns }]
      | some (y, m, d) =>
        let yearPart : List VR :=
          if y < cfg.min_year then
            [{ field := "dates.invoice_date".data, is_valid := false
               severity := .warning, message := .dateVeryOld v
               suggested_fix := some .verifyYearExtracted }]
          else if y > cfg.max_year then
            [{ field := "dates.invoice_date".data, is_valid := false
               severity := .error, message := .dateFarFuture v
               suggested_fix := some .checkDateExtractionErrors }]
          else []
        let futurePart : List VR :=
          if (toOrdinal y m d : ℚ) > now + cfg.max_future_days then
            [{ field := "dates.invoice_date".data, is_valid := false
               severity := .warning, message := .dateFarFutureWarn v
               suggested_fix := some .verifyCorrect }]
          else []
        let pastPart : List VR :=
          if (toOrdinal y m d : ℚ) < now - (cfg.max_past_years * 365 : Nat) then
            [{ field := "dates.invoice_date".data, is_valid := false
               severity := .warning, message := .dateVeryOld v
               suggested_fix := some .verifyCurrentInvoice }]
          else []
        let soFar := acc ++ yearPart ++ futurePart ++ pastPart
        -- `if all(r.is_valid for r in self.validation_results
        --         if r.field == 'dates.invoice_date')`
        if (soFar.filter
            fun r => r.field = "dates.invoice_date".data).all (·.is_valid) then
          soFar ++ [{ field := "dates.invoice_date".data, is_valid := true
                      severity := .info, message := .invoiceDateValidated v
                      suggested_fix := none }]
        else soFar
  else acc

/-- The due-date block of `_validate_dates`, starting from the
accumulator `acc1` left by the invoice-date block. -/
def validateDatesDue (dates : DatesR) (acc1 : List VR) : List VR :=
  let invVal := dates.invoice_date.value
  let dueVal := dates.due_date.value
  if pyTruthyStr dueVal then
    let v := dueVal.getD []
    match parseYMD v with
    | none =>
      acc1 ++ [{ field := "dates.due_date".data, is_valid := false
                 severity := .warning, message := .invalidDateFormat v
                 suggested_fix := some .checkDatePatterns }]
    | some (dy, dm, dd) =>
      if pyTruthyStr invVal then
        match parseYMD (invVal.getD []) with
        | some (iy, im, id) =>
          if toOrdinal dy dm dd < toOrdinal iy im id then
            acc1 ++ [{ field := "dates.due_date".data, is_valid := false
                       severity := .error
                       message := .dueBeforeInvoice v (invVal.getD [])
                       suggested_fix := some .checkWhichDate }]
          else
            acc1 ++ [{ field := "dates.due_date".data, is_valid := true
                       severity := .info, message := .dueDateValidated v
                       suggested_fix := none }]
        | none => acc1  -- ValueError swallowed by the bare `except`
      else acc1
  else acc1

/-- `_validate_dates`. -/
def validateDates (cfg : Config) (now : ℚ) (dates : DatesR)
    (acc : List VR) : List VR :=
  validateDatesDue dates (validateDatesInvoice cfg now dates acc)

/-- `_validate_amounts`. -/
def validateAmounts (cfg : Config) (amounts : AmountsR)
    (acc : List VR) : List VR :=
  let total := amounts.total.value
  let subtotal := amounts.subtotal.value
  let tax := amounts.tax.value
  let discount := amounts.discount.value
  let totalPart : List VR :=
    match total with
    | some t =>
      if t < cfg.min_total then
        [{ field := "amounts.total".data, is_valid := false
           severity := .error, message := .totalTooSmall t cfg.min_total
           suggested_fix := some .checkAmountExtraction }]
      else if t > cfg.max_total then
        [{ field := "amounts.total".data, is_valid := false
           severity := .warning, message := .totalTooLarge t cfg.max_total
           suggested_fix := some .verifyAmountCorrect }]
      else
        [{ field := "amounts.total".data, is_valid := true
           severity := .info, message := .totalValidated t
           suggested_fix := none }]
    | none => []
  let subtotalPart : List VR :=
    match subtotal, total with
    | some s, some t =>
      if s > t then
        [{ field := "amounts.subtotal".data, is_valid := false
           severity := .error, message := .subtotalGreater s t
           suggested_fix := some .checkAmountsExtracted }]
      else []
    | _, _ => []
  let taxPart : List VR :=
    match tax with
    | some x =>
      (if x < 0 then
        [{ field := "amounts.tax".data, is_valid := false
           severity := .error, message := .taxNegative x
           suggested_fix := some .checkTaxExtraction }]
      else []) ++
      (if pyTruthyQ subtotal ∧ subtotal.getD 0 > 0 then
        let pct := x / subtotal.getD 0 * 100
        if pct > cfg.max_tax_percentage then
          [{ field := "amounts.tax".data, is_valid := false
             severity := .warning, message := .taxRateTooHigh pct
             suggested_fix := some .verifyTaxAmount }]
        else []
      else [])
    | none => []
  let discountPart : List VR :=
    match discount with
    | some dv =>
      if dv < 0 then
        [{ field := "amounts.discount".data, is_valid := false
           severity := .warning, message := .discountNegative dv
           suggested_fix := some .checkMeantPositive }]
      else []
    | none => []
  acc ++ totalPart ++ subtotalPart ++ taxPart ++ discountPart

/-- The first block of `_validate_tax` (subtotal + tax ≈ total). -/
def validateTaxConsistency (cfg : Config) (amounts : AmountsR) : List VR :=
  let total := amounts.total.value
  let subtotal := amounts.subtotal.value
  let tax := amounts.tax.value
  if total.isSome ∧ subtotal.isSome ∧ tax.isSome then
    let t := total.getD 0
    let s := subtotal.getD 0
    let x := tax.getD 0
    let calculatedTotal := s + x
    let difference := |t - calculatedTotal|
    let tolerance := t * cfg.tax_tolerance
    if difference > tolerance then
      [{ field := "amounts".data, is_valid := false, severity := .warning
         message := .amountsDontAddUp s x t difference
         suggested_fix := some (.expectedTotal calculatedTotal) }]
    else
      [{ field := "amounts".data, is_valid := true, severity := .info
         message := .amountsConsistent, suggested_fix := none }]
  else []

/-- The second block of `_validate_tax` (tax percentage vs tax). -/
def validateTaxPct (cfg : Config) (amounts : AmountsR)
    (taxInfo : TaxInfoR) : List VR :=
  let subtotal := amounts.subtotal.value
  let tax := amounts.tax.value
  let taxPercentage := taxInfo.tax_percentage.value
  if pyTruthyQ taxPercentage ∧ pyTruthyQ subtotal ∧ pyTruthyQ tax then
    let pct := taxPercentage.getD 0
    let s := subtotal.getD 0
    let x := tax.getD 0
    let expectedTax := s * (pct / 100)
    let taxDiff := |x - expectedTax|
    if taxDiff > expectedTax * cfg.tax_tolerance then
      [{ field := "tax_info.tax_percentage".data, is_valid := false
         severity := .warning, message := .taxPctMismatch pct
         suggested_fix := some (.expectedTax expectedTax x) }]
    else []
  else []

/-- `_validate_tax`. -/
def validateTax (cfg : Config) (amounts : AmountsR) (taxInfo : TaxInfoR)
    (acc : List VR) : List VR :=
  acc ++ validateTaxConsistency cfg amounts ++ validateTaxPct cfg amounts taxInfo

/-- The currency whitelist of `_validate_currency`. -/
def validCurrencies : List Str :=
  ["USD".data, "EUR".data, "GBP".data, "JPY".data, "CNY".data, "INR".data,
   "CAD".data, "AUD".data, "SAR".data, "AED".data, "QAR".data, "KWD".data,
   "OMR".data, "BHD".data, "JOD".data, "EGP".data, "LBP".data, "SYP".data,
   "IQD".data, "TRY".data]

/-- `_validate_currency`. -/
def validateCurrency (currency : CurrencyR) (acc : List VR) : List VR :=
  if ¬ pyTruthyStr currency.value then
    acc ++ [{ field := "currency".data, is_valid := false
              severity := .warning, message := .currencyMissing
              suggested_fix := some .defaultUSD }]
  else
    let v := currency.value.getD []
    if ¬ validCurrencies.contains v then
      acc ++ [{ field := "currency".data, is_valid := false
                severity := .warning, message := .currencyUnusual v
                suggested_fix := some .verifyCurrency }]
    else
      acc ++ [{ field := "currency".data, is_valid := true
                severity := .info, message := .currencyValidated v
                suggested_fix := none }]

/-- The anchored email regex of `_validate_parties`:
`^[a-zA-Z0-9._%+-]+@[a-zA-Z0-9.-]+\.[A-Z|a-z]{2,}$`, used with
`re.match`. -/
def partiesEmailRe : Re.RE :=
  Re.seq [.bos,
    Re.plus (.cls fun c => ('A' ≤ pyUpperChar c ∧ pyUpperChar c ≤ 'Z') ∨
      ('0' ≤ c ∧ c ≤ '9') ∨ "._%+-".data.contains c),
    Re.chr '@',
    Re.plus (.cls fun c => ('A' ≤ pyUpperChar c ∧ pyUpperChar c ≤ 'Z') ∨
      ('0' ≤ c ∧ c ≤ '9') ∨ ".-".data.contains c),
    Re.chr '.',
    .rep (.cls fun c => ('A' ≤ pyUpperChar c ∧ pyUpperChar c ≤ 'Z') ∨ c = '|')
      2 none,
    .eos]

/-- `_validate_parties`. -/
def validateParties (vendor : VendorR) (customer : CustomerR)
    (acc : List VR) : List VR :=
  let _ := customer  -- read for symmetry with the source signature
  let namePart : List VR :=
    if ¬ pyTruthyStr vendor.name.value then
      [{ field := "vendor_info.name".data, is_valid := false
         severity := .warning, message := .vendorNameMissing
         suggested_fix := some .checkHeaderVendorZone }]
    else []
  let emailPart : List VR :=
    if pyTruthyStr vendor.email.value then
      let e := vendor.email.value.getD []
      if (Re.matchStart partiesEmailRe e).isNone then
        [{ field := "vendor_info.email".data, is_valid := false
           severity := .warning, message := .emailInvalid e
           suggested_fix := some .verifyEmailExtraction }]
      else []
    else []
  let phonePart : List VR :=
    if pyTruthyStr vendor.phone.value then
      let p := vendor.phone.value.getD []
      if (p.filter pyIsDigit).length < 7 then
        [{ field := "vendor_info.phone".data, is_valid := false
           severity := .warning, message := .phoneIncomplete p
           suggested_fix := some .verifyPhoneExtraction }]
      else []
    else []
  acc ++ namePart ++ emailPart ++ phonePart

/-- `_validate_line_items`. -/
def validateLineItems (lineItems : List LineItem) (amounts : AmountsR)
    (acc : List VR) : List VR :=
  if lineItems = [] then
    acc ++ [{ field := "line_items".data, is_valid := false
              severity := .warning, message := .noLineItems
              suggested_fix := some .checkTableStructure }]
  else
    let totalFromItems :=
      ((lineItems.filter fun it => pyTruthyQ it.amount).map
        fun it => it.amount.getD 0).sum
    let subtotal := amounts.subtotal.value
    let total := amounts.total.value
    let comparePart : List VR :=
      if totalFromItems > 0 then
        if pyTruthyQ subtotal then
          let s := subtotal.getD 0
          if |totalFromItems - s| > s * 0.05 then
            [{ field := "line_items".data, is_valid := false
               severity := .warning
               message := .itemsSubtotalMismatch totalFromItems s
               suggested_fix := some .checkLineItemExtraction }]
          else []
        else if pyTruthyQ total then
          let t := total.getD 0
          if |totalFromItems - t| > t * 0.05 then
            [{ field := "line_items".data, is_valid := false
               severity := .info
               message := .itemsTotalDiffer totalFromItems t
               suggested_fix := some .normalTaxDiscount }]
          else []
        else []
      else []
    acc ++ comparePart ++
      [{ field := "line_items".data, is_valid := true, severity := .info
         message := .itemsFound lineItems.length, suggested_fix := none }]

/-- `_validate_confidence_scores`. -/
def validateConfidenceScores (cfg : Config) (d : ExtractedData)
    (acc : List VR) : List VR :=
  let c := d.metadata.extraction_confidence
  if c < cfg.conf_minimum then
    acc ++ [{ field := "metadata.confidence".data, is_valid := false
              severity := .error, message := .confVeryLow c
              suggested_fix := some .imageQualityPoor }]
  else if c < cfg.conf_warning then
    acc ++ [{ field := "metadata.confidence".data, is_valid := true
              severity := .warning, message := .confLow c
              suggested_fix := some .manualVerification }]
  else if c < cfg.conf_good then
    acc ++ [{ field := "metadata.confidence".data, is_valid := true
              severity := .info, message := .confModerate c
              suggested_fix := none }]
  else
    acc ++ [{ field := "metadata.confidence".data, is_valid := true
              severity := .info, message := .confGood c
              suggested_fix := none }]

/-- `_validate_consistency`. -/
def validateConsistency (d : ExtractedData) (acc : List VR) : List VR :=
  let vendorName := d.vendor_info.name.value
  let customerName := d.customer_info.name.value
  if pyTruthyStr vendorName ∧ pyTruthyStr customerName ∧
      vendorName = customerName then
    acc ++ [{ field := "consistency".data, is_valid := false
              severity := .warning, message := .vendorCustomerSame
              suggested_fix := some .checkParties }]
  else acc

/-- `PASSED` / `WARNING` / `FAILED`. -/
inductive Status where
  | PASSED | WARNING | FAILED
deriving DecidableEq, Repr

/-- Recommended actions (`_get_recommended_actions` lines). -/
inductive Action where
  | criticalErrors
  | fixErrors (n : Nat)
  | warningsFound (n : Nat)
  | allPassed
  | dataAccurate
deriving DecidableEq, Repr

/-- The validation report. -/
structure Report where
  overall_status : Status
  quality_score : ℚ
  total_checks : Nat
  passed : Nat
  failed : Nat
  num_errors : Nat
  num_warnings : Nat
  num_info : Nat
  errors : List VR
  warnings : List VR
  info : List VR
  all_results : List VR
  requires_manual_review : Bool
  recommended_actions : List Action
deriving DecidableEq, Repr

/-- `_get_recommended_actions`. -/
def recommendedActions (errors warnings : List VR) : List Action :=
  (if errors ≠ [] then [.criticalErrors, .fixErrors errors.length] else []) ++
  (if warnings ≠ [] then [.warningsFound warnings.length] else []) ++
  (if errors = [] ∧ warnings = [] then [.allPassed, .dataAccurate] else [])

/-- `_generate_report`. -/
def generateReport (results : List VR) : Report :=
  let errors := results.filter fun r => r.severity = .error ∧ ¬ r.is_valid
  let warnings := results.filter fun r => r.severity = .warning ∧ ¬ r.is_valid
  let infos := results.filter fun r => r.severity = .info
  let overall : Status :=
    if errors ≠ [] then .FAILED
    else if warnings ≠ [] then .WARNING
    else .PASSED
  let totalChecks := results.length
  let passedChecks := (results.filter (·.is_valid)).length
  { overall_status := overall
    quality_score :=
      if totalChecks > 0 then (passedChecks : ℚ) / totalChecks * 100 else 0
    total_checks := totalChecks
    passed := passedChecks
    failed := totalChecks - passedChecks
    num_errors := errors.length
    num_warnings := warnings.length
    num_info := infos.length
    errors := errors
    warnings := warnings
    info := infos
    all_results := results
    requires_manual_review := errors.length > 0 ∨ warnings.length > 2
    recommended_actions := recommendedActions errors warnings }

/-- The ten checks of `validate_all`, run in order on an initially empty
accumulator. -/
def runChecks (cfg : Config) (now : ℚ) (d : ExtractedData) : List VR :=
  let acc := ([] : List VR)
  let acc := validateRequiredFields cfg d acc
  let acc := validateInvoiceNumber cfg d.invoice_number acc
  let acc := validateDates cfg now d.dates acc
  let acc := validateAmounts cfg d.amounts acc
  let acc := validateTax cfg d.amounts d.tax_info acc
  let acc := validateCurrency d.currency acc
  let acc := validateParties d.vendor_info d.customer_info acc
  let acc := validateLineItems d.line_items d.amounts acc
  let acc := validateConfidenceScores cfg d acc
  let acc := validateConsistency d acc
  acc

/-- `validate_all` on an instance whose `validation_results` attribute
currently holds `prior`: the method begins with
`self.validation_results = []`, so `prior` is discarded; the report and
the instance's new accumulator are returned. -/
def validateAllStateful (cfg : Config) (now : ℚ) (prior : List VR)
    (d : ExtractedData) : Report × List VR :=
  let _ := prior  -- overwritten by the reset at the top of the method
  let results := runChecks cfg now d
  (generateReport results, results)

/-- `validate_all` (a fresh instance starts with an empty accumulator). -/
def validateAll (cfg : Config) (now : ℚ) (d : ExtractedData) : Report :=
  (validateAllStateful cfg now [] d).1

end OCRPart.Valid

namespace OCRPart

open Layout Extract Valid Patterns

/-- The amounts record used by the C1 witness (total 1150, subtotal 1000,
tax as given). -/
def c1Amounts (taxVal : ℚ) : Extract.AmountsR :=
  { total := { value := some 1150, confidence := 0.98, source := none, zone := none }
    subtotal := { value := some 1000, confidence := 0.96, source := none, zone := none }
    tax := { value := some taxVal, confidence := 0.94, source := none, zone := none }
    discount := { value := none, confidence := 0, source := none, zone := none } }

/-- An empty tax-info record. -/
def c1TaxInfo : Extract.TaxInfoR :=
  { tax_id := { value := none, confidence := 0, source := none }
    tax_percentage := { value := none, confidence := 0, source := none } }

/-- **C1** — Tax-consistency check: whenever total, subtotal and tax are
all present, `_validate_tax` (check 5 of `validate_all`) appends a
warning `ValidationResult` carrying the expected total in its suggested
fix exactly when `|total - (subtotal + tax)| > total * 0.02`, and a
passing info result otherwise (followed by the independent
tax-percentage block). -/
theorem tax_consistency_check (amounts : Extract.AmountsR)
    (taxInfo : Extract.TaxInfoR) (acc : List Valid.VR) (t s x : ℚ)
    (ht : amounts.total.value = some t)
    (hs : amounts.subtotal.value = some s)
    (hx : amounts.tax.value = some x) :
    Valid.validateTax Valid.defaultConfig amounts taxInfo acc =
      acc ++ (if |t - (s + x)| > t * (0.02 : ℚ) then
        [{ field := "amounts".data, is_valid := false
           severity := .warning
           message := .amountsDontAddUp s x t |t - (s + x)|
           suggested_fix := some (.expectedTotal (s + x)) }]
      else
        [{ field := "amounts".data, is_valid := true, severity := .info
           message := .amountsConsistent, suggested_fix := none }]) ++
      Valid.validateTaxPct Valid.defaultConfig amounts taxInfo := by
  simp only [Valid.validateTax, Valid.validateTaxConsistency, ht, hs, hx,
    Option.isSome_some, Option.getD_some, and_self, if_true,
    Valid.defaultConfig]

/-- **C1 witness** — at the claim's concrete inputs: with total 1150,
subtotal 1000 and tax 150 the check appends the passing info result
(difference 0 within the 2 % tolerance 23), and with tax 100 it appends
the mismatch warning carrying expected total 1100. -/
theorem tax_consistency_check_witness :
    (Valid.validateTax Valid.defaultConfig (c1Amounts 150) c1TaxInfo [] =
      [{ field := "amounts".data, is_valid := true, severity := .info
         message := .amountsConsistent, suggested_fix := none }]) ∧
    (Valid.validateTax Valid.defaultConfig (c1Amounts 100) c1TaxInfo [] =
      [{ field := "amounts".data, is_valid := false, severity := .warning
         message := .amountsDontAddUp 1000 100 1150 50
         suggested_fix := some (.expectedTotal 1100) }]) := by
  constructor
  · have h := tax_consistency_check (c1Amounts 150) c1TaxInfo [] 1150 1000 150
      rfl rfl rfl
    rw [h]
    norm_num [c1Amounts, c1TaxInfo, Valid.validateTaxPct, Extract.pyTruthyQ]
  · have h := tax_consistency_check (c1Amounts 100) c1TaxInfo [] 1150 1000 100
      rfl rfl rfl
    rw [h]
    norm_num [c1Amounts, c1TaxInfo, Valid.validateTaxPct, Extract.pyTruthyQ,
      abs_of_nonneg]


/-- **C9** — Validator idempotence/determinism: with the clock held
fixed, `validate_all` produces a report independent of the accumulator
state left in the instance by earlier calls (the method resets
`self.validation_results` on entry): two instances with the same
configuration agree, a second run on the same instance reproduces the
first report, and both equal the fresh-instance `validate_all`. -/
theorem validator_idempotent (cfg : Valid.Config) (now : ℚ)
    (d : Extract.ExtractedData) (prior₁ prior₂ : List Valid.VR) :
    (Valid.validateAllStateful cfg now prior₁ d).1 =
      (Valid.validateAllStateful cfg now prior₂ d).1 ∧
    (Valid.validateAllStateful cfg now
        (Valid.validateAllStateful cfg now prior₁ d).2 d).1 =
      (Valid.validateAllStateful cfg now prior₁ d).1 ∧
    Valid.validateAll cfg now d =
      (Valid.validateAllStateful cfg now prior₁ d).1 :=
  ⟨rfl, rfl, rfl⟩

end OCRPart

namespace OCRPart

open Layout Extract Valid Patterns

/-- The due-date block only appends to the accumulator it receives. -/
theorem validateDatesDue_append (dates : Extract.DatesR)
    (acc : List Valid.VR) :
    ∃ l, Valid.validateDatesDue dates acc = acc ++ l := by
  unfold Valid.validateDatesDue
  dsimp only
  split
  · split
    · exact ⟨_, rfl⟩
    · split
      · split
        · split
          · exact ⟨_, rfl⟩
          · exact ⟨_, rfl⟩
        · exact ⟨[], by simp⟩
      · exact ⟨[], by simp⟩
  · exact ⟨[], by simp⟩

/-- A dates record with only string values set, for counterexamples. -/
def mkDates (inv due : Option String) : Extract.DatesR :=
  { invoice_date := { value := inv.map String.data, confidence := 0.9
                      source := none }
    due_date := { value := due.map String.data, confidence := 0.9
                  source := none }
    other_dates := [] }

/-- **C4 counterexample** — a due date that does not parse as
`YYYY-MM-DD` produces a *warning*-severity result on `dates.due_date`,
not the error severity the claim asserts (the invoice-date branch does
produce an error, but the due-date branch of `_validate_dates` uses
`severity='warning'`). -/
theorem due_date_format_severity_counterexample :
    Valid.validateDates Valid.defaultConfig 0
        (mkDates none (some "2024-13-01")) [] =
      [{ field := "dates.due_date".data, is_valid := false
         severity := .warning
         message := .invalidDateFormat "2024-13-01".data
         suggested_fix := some .checkDatePatterns }] ∧
    Valid.Severity.warning ≠ Valid.Severity.error := by
  constructor
  · rfl
  · decide

/-- **C4 (amended)** — Date validation: an invoice date that does not
parse as `YYYY-MM-DD` produces an error-severity result on
`dates.invoice_date`; a due date that does not parse produces a
*warning*-severity result on `dates.due_date`; and when both dates
parse, a due date strictly before the invoice date produces an
error-severity result on `dates.due_date`. -/
theorem date_validation_results :
    (∀ (cfg : Valid.Config) (now : ℚ) (dates : Extract.DatesR)
        (acc : List Valid.VR) (v : Str),
      dates.invoice_date.value = some v → v ≠ [] → Valid.parseYMD v = none →
      ({ field := "dates.invoice_date".data, is_valid := false
         severity := .error, message := .invalidDateFormat v
         suggested_fix := some .checkDatePatterns } : Valid.VR) ∈
        Valid.validateDates cfg now dates acc) ∧
    (∀ (cfg : Valid.Config) (now : ℚ) (dates : Extract.DatesR)
        (acc : List Valid.VR) (v : Str),
      dates.due_date.value = some v → v ≠ [] → Valid.parseYMD v = none →
      ({ field := "dates.due_date".data, is_valid := false
         severity := .warning, message := .invalidDateFormat v
         suggested_fix := some .checkDatePatterns } : Valid.VR) ∈
        Valid.validateDates cfg now dates acc) ∧
    (∀ (cfg : Valid.Config) (now : ℚ) (dates : Extract.DatesR)
        (acc : List Valid.VR) (dv iv : Str) (dy dm dd iy im id : Nat),
      dates.due_date.value = some dv → dv ≠ [] →
      dates.invoice_date.value = some iv → iv ≠ [] →
      Valid.parseYMD dv = some (dy, dm, dd) →
      Valid.parseYMD iv = some (iy, im, id) →
      Valid.toOrdinal dy dm dd < Valid.toOrdinal iy im id →
      ({ field := "dates.due_date".data, is_valid := false
         severity := .error, message := .dueBeforeInvoice dv iv
         suggested_fix := some .checkWhichDate } : Valid.VR) ∈
        Valid.validateDates cfg now dates acc) := by
  refine ⟨?_, ?_, ?_⟩
  · intro cfg now dates acc v hv hne hp
    have hinv : Valid.validateDatesInvoice cfg now dates acc =
        acc ++ [{ field := "dates.invoice_date".data, is_valid := false
                  severity := .error, message := .invalidDateFormat v
                  suggested_fix := some .checkDatePatterns }] := by
      simp [Valid.validateDatesInvoice, hv, hp, Extract.pyTruthyStr, hne]
    obtain ⟨l, hl⟩ := validateDatesDue_append dates
      (Valid.validateDatesInvoice cfg now dates acc)
    unfold Valid.validateDates
    rw [hl, hinv]
    simp
  · intro cfg now dates acc v hv hne hp
    unfold Valid.validateDates Valid.validateDatesDue
    simp [hv, hp, Extract.pyTruthyStr, hne]
  · intro cfg now dates acc dv iv dy dm dd iy im id hdv hdne hiv hine hpd hpi hlt
    unfold Valid.validateDates Valid.validateDatesDue
    simp [hdv, hiv, hpd, hpi, Extract.pyTruthyStr, hdne, hine, hlt]

/-- **C4 witness** — concrete instances: unparseable invoice date
`2024-99-99` yields the error result; unparseable due date `2024-13-01`
yields the warning result; due date `2024-01-15` before invoice date
`2024-02-15` yields the error on `dates.due_date`. -/
theorem date_validation_results_witness :
    (({ field := "dates.invoice_date".data, is_valid := false
        severity := .error, message := .invalidDateFormat "2024-99-99".data
        suggested_fix := some .checkDatePatterns } : Valid.VR) ∈
      Valid.validateDates Valid.defaultConfig 0
        (mkDates (some "2024-99-99") none) []) ∧
    (({ field := "dates.due_date".data, is_valid := false
        severity := .warning, message := .invalidDateFormat "2024-13-01".data
        suggested_fix := some .checkDatePatterns } : Valid.VR) ∈
      Valid.validateDates Valid.defaultConfig 0
        (mkDates none (some "2024-13-01")) []) ∧
    (({ field := "dates.due_date".data, is_valid := false
        severity := .error
        message := .dueBeforeInvoice "2024-01-15".data "2024-02-15".data
        suggested_fix := some .checkWhichDate } : Valid.VR) ∈
      Valid.validateDates Valid.defaultConfig 0
        (mkDates (some "2024-02-15") (some "2024-01-15")) []) :=
  ⟨date_validation_results.1 _ _ _ _ _ rfl (by decide) rfl,
   date_validation_results.2.1 _ _ _ _ _ rfl (by decide) rfl,
   date_validation_results.2.2 _ _ _ _ _ _ 2024 1 15 2024 2 15 rfl
     (by decide) rfl (by decide) rfl rfl (by decide)⟩

end OCRPart

namespace OCRPart

open Patterns

unseal Rat.add Rat.sub Rat.mul Rat.inv Rat.ofScientific in
/-- **C2** — `clean_amount` separator disambiguation: when both `.` and
`,` occur (after currency stripping), the separator appearing last is
treated as the decimal point (the other is stripped), so `1.234,56` and
`1,234.56` both map to 1234.56; when only `,` occurs it is treated as
the decimal point exactly when there is a single comma with at most two
trailing digits (`123,45` ↦ 123.45) and is otherwise stripped as a
thousands separator (`1,234,567` ↦ 1234567); any input whose normalized
form still fails to parse yields 0.0 (the function is total in the
embedding, mirroring that the Python code never raises). -/
theorem clean_amount_separator_rules :
    (Patterns.cleanAmount "1.234,56".data = 1234.56) ∧
    (Patterns.cleanAmount "1,234.56".data = 1234.56) ∧
    (Patterns.cleanAmount "123,45".data = 123.45) ∧
    (Patterns.cleanAmount "1,234,567".data = 1234567) ∧
    (∀ s : Str, s ≠ [] →
      (h1 : (Patterns.cleanAmountStrip s).contains ',' = true) →
      (h2 : (Patterns.cleanAmountStrip s).contains '.' = true) →
      (Patterns.cleanAmountStrip s).length - 1 -
          ((Patterns.cleanAmountStrip s).reverse.indexOf ',') >
        (Patterns.cleanAmountStrip s).length - 1 -
          ((Patterns.cleanAmountStrip s).reverse.indexOf '.') →
      Patterns.cleanAmount s = (pyFloat (replaceChar
        (removeChar (Patterns.cleanAmountStrip s) '.') ',' '.')).getD 0) ∧
    (∀ s : Str, s ≠ [] →
      (Patterns.cleanAmountStrip s).contains ',' = true →
      (Patterns.cleanAmountStrip s).contains '.' = true →
      ¬ ((Patterns.cleanAmountStrip s).length - 1 -
          ((Patterns.cleanAmountStrip s).reverse.indexOf ',') >
        (Patterns.cleanAmountStrip s).length - 1 -
          ((Patterns.cleanAmountStrip s).reverse.indexOf '.')) →
      Patterns.cleanAmount s =
        (pyFloat (removeChar (Patterns.cleanAmountStrip s) ',')).getD 0) ∧
    (∀ s : Str, s ≠ [] →
      (Patterns.cleanAmountStrip s).contains ',' = true →
      (Patterns.cleanAmountStrip s).contains '.' = false →
      countChar (Patterns.cleanAmountStrip s) ',' = 1 →
      ((Patterns.cleanAmountStrip s).drop
        ((Patterns.cleanAmountStrip s).indexOf ',' + 1)).length ≤ 2 →
      Patterns.cleanAmount s =
        (pyFloat (replaceChar (Patterns.cleanAmountStrip s) ',' '.')).getD 0) ∧
    (∀ s : Str, s ≠ [] →
      (Patterns.cleanAmountStrip s).contains ',' = true →
      (Patterns.cleanAmountStrip s).contains '.' = false →
      ¬ (countChar (Patterns.cleanAmountStrip s) ',' = 1 ∧
        ((Patterns.cleanAmountStrip s).drop
          ((Patterns.cleanAmountStrip s).indexOf ',' + 1)).length ≤ 2) →
      Patterns.cleanAmount s =
        (pyFloat (removeChar (Patterns.cleanAmountStrip s) ',')).getD 0) ∧
    (∀ s : Str,
      pyFloat (Patterns.disambiguateSeparators (Patterns.cleanAmountStrip s)) =
        none →
      Patterns.cleanAmount s = 0) ∧
    (Patterns.cleanAmount "abc".data = 0) := by
  refine ⟨by decide, by decide, by decide, by decide, ?_, ?_, ?_, ?_, ?_,
    by decide⟩
  · intro s hne h1 h2 h3
    unfold Patterns.cleanAmount
    rw [if_neg hne]
    unfold Patterns.disambiguateSeparators
    rw [if_pos ⟨h1, h2⟩]
    dsimp only
    rw [if_pos h3]
  · intro s hne h1 h2 h3
    unfold Patterns.cleanAmount
    rw [if_neg hne]
    unfold Patterns.disambiguateSeparators
    rw [if_pos ⟨h1, h2⟩]
    dsimp only
    rw [if_neg h3]
  · intro s hne h1 h2 hc ht
    unfold Patterns.cleanAmount
    rw [if_neg hne]
    unfold Patterns.disambiguateSeparators
    have hnot : '.' ∉ Patterns.cleanAmountStrip s := by simpa using h2
    rw [if_neg (by simp [hnot]), if_pos h1, if_pos ⟨hc, ht⟩]
  · intro s hne h1 h2 h3
    unfold Patterns.cleanAmount
    rw [if_neg hne]
    unfold Patterns.disambiguateSeparators
    have hnot : '.' ∉ Patterns.cleanAmountStrip s := by simpa using h2
    rw [if_neg (by simp [hnot]), if_pos h1, if_neg h3]
  · intro s h
    by_cases hne : s = []
    · simp [Patterns.cleanAmount, hne]
    · simp [Patterns.cleanAmount, hne, h]

unseal Rat.add Rat.sub Rat.mul Rat.inv Rat.ofScientific in
/-- **C2 witness** — the comma-only decimal rule applied at `123,45`:
the stripped string has a single comma with two trailing digits, and
`clean_amount` returns the comma-as-decimal parse, which is 123.45. -/
theorem clean_amount_separator_rules_witness :
    Patterns.cleanAmount "123,45".data =
      (pyFloat (replaceChar (Patterns.cleanAmountStrip "123,45".data)
        ',' '.')).getD 0 ∧
    Patterns.cleanAmount "123,45".data = 123.45 :=
  ⟨clean_amount_separator_rules.2.2.2.2.2.2.1 "123,45".data (by decide)
    (by decide) (by decide) (by decide) (by decide),
   clean_amount_separator_rules.2.2.1⟩

end OCRPart

namespace OCRPart

open Layout

/-- The six zone-dictionary keys (the five configured zones plus the
`'unknown'` fallback). -/
def zoneNames : List Str :=
  ["header".data, "vendor".data, "items".data, "totals".data,
   "footer".data, "unknown".data]

/-- Modelled from the claim's words: the zone whose *half-open* range
`[y_start, y_end)` contains the y-coordinate. -/
def claimHalfOpenZone (normY : ℚ) : Str :=
  match Layout.zoneDefs.find? fun z => z.2.1 ≤ normY ∧ normY < z.2.2 with
  | some z => z.1
  | none => "unknown".data

/-- `firstZone` always yields one of the six zone keys. -/
theorem firstZone_mem_zoneNames (y : ℚ) :
    Layout.firstZone y ∈ zoneNames := by
  unfold Layout.firstZone Layout.zoneDefs
  simp only [List.find?]
  cases h1 : Layout.zoneContains 0 0.20 y <;>
  cases h2 : Layout.zoneContains 0.20 0.35 y <;>
  cases h3 : Layout.zoneContains 0.35 0.75 y <;>
  cases h4 : Layout.zoneContains 0.75 0.95 y <;>
  cases h5 : Layout.zoneContains 0.95 1.0 y <;>
  simp [h1, h2, h3, h4, h5, zoneNames]

/-- Membership in a sorted filtered zone list forces the first-match
rule. -/
theorem mem_inZone {es : List Element} {n : Str} {e : Element}
    (he : e ∈ (es.filter fun x =>
      Layout.firstZone x.y = n).mergeSort Layout.leYX) :
    Layout.firstZone e.y = n := by
  rw [List.mem_mergeSort] at he
  simpa using (List.mem_filter.mp he).2

/-- Membership in a zone list implies the first-match rule. -/
theorem mem_zone_firstZone (es : List Element) (n : Str) (hn : n ∈ zoneNames)
    (e : Element) (he : e ∈ (Layout.assignToZones es).get n) :
    Layout.firstZone e.y = n := by
  simp only [zoneNames, List.mem_cons, List.not_mem_nil, or_false] at hn
  rcases hn with rfl | rfl | rfl | rfl | rfl | rfl <;>
  · simp only [Layout.assignToZones, Layout.ZoneMap.get] at he
    exact mem_inZone he

/-- **C3 (amended)** — Zone assignment partitions the input: each
element is placed in exactly one zone list — the first zone in the fixed
order (header, vendor, items, totals, footer) whose *closed* range
`[y_start, y_end]` contains its normalized y-center, with `'unknown'` as
fallback — so the zone lists are pairwise disjoint and their sizes sum
to the number of input elements. -/
theorem zone_assignment_partitions (es : List Element) :
    ((Layout.assignToZones es).header.length +
      (Layout.assignToZones es).vendor.length +
      (Layout.assignToZones es).items.length +
      (Layout.assignToZones es).totals.length +
      (Layout.assignToZones es).footer.length +
      (Layout.assignToZones es).unknown.length = es.length) ∧
    (∀ n ∈ zoneNames, ∀ e ∈ (Layout.assignToZones es).get n,
      Layout.firstZone e.y = n) ∧
    (∀ n₁ ∈ zoneNames, ∀ n₂ ∈ zoneNames, n₁ ≠ n₂ →
      ∀ e ∈ (Layout.assignToZones es).get n₁,
        e ∉ (Layout.assignToZones es).get n₂) := by
  refine ⟨?_, ?_, ?_⟩
  · simp only [Layout.assignToZones, List.length_mergeSort]
    induction es with
    | nil => simp
    | cons e es ih =>
      have h6 := firstZone_mem_zoneNames e.y
      simp only [zoneNames, List.mem_cons, List.not_mem_nil, or_false] at h6
      rcases h6 with h | h | h | h | h | h <;>
        simp [List.filter_cons, h] <;> omega
  · intro n hn e he
    exact mem_zone_firstZone es n hn e he
  · intro n₁ hn₁ n₂ hn₂ hne e he₁ he₂
    exact hne ((mem_zone_firstZone es n₁ hn₁ e he₁).symm.trans
      (mem_zone_firstZone es n₂ hn₂ e he₂))

unseal List.merge List.mergeSort Rat.add Rat.sub Rat.mul Rat.inv Rat.ofScientific in
/-- **C3 counterexample** — the claim's half-open rule `[y_start, y_end)`
does not describe the code: `Zone.contains` uses *inclusive* bounds with
first-match-wins, so an element whose normalized y-center is exactly
0.20 is placed in `header`, while the half-open rule puts 0.20 in
`vendor`. -/
theorem zone_boundary_counterexample :
    (Layout.assignToZones
        [{ text := "x".data, confidence := 1, bbox := [],
           x := mkRat 1 2, y := mkRat 1 5 }]).header =
      [{ text := "x".data, confidence := 1, bbox := [],
         x := mkRat 1 2, y := mkRat 1 5 }] ∧
    (Layout.assignToZones
        [{ text := "x".data, confidence := 1, bbox := [],
           x := mkRat 1 2, y := mkRat 1 5 }]).vendor = [] ∧
    claimHalfOpenZone (mkRat 1 5) = "vendor".data ∧
    "header".data ≠ "vendor".data := by
  refine ⟨by decide, by decide, by decide, by decide⟩

unseal List.merge List.mergeSort Rat.add Rat.sub Rat.mul Rat.inv Rat.ofScientific in
/-- **C3 witness** — the partition properties applied to a concrete
two-element list: the element at y 0.1 lands in `header`, the one at
y 0.5 in `items`, the first-match rule holds for them, and they are not
shared between zones. -/
theorem zone_assignment_partitions_witness :
    ((Layout.assignToZones
      [{ text := "a".data, confidence := 1, bbox := [],
         x := 0, y := mkRat 1 10 },
       { text := "b".data, confidence := 1, bbox := [],
         x := 0, y := mkRat 1 2 }]).header.length +
      (Layout.assignToZones
      [{ text := "a".data, confidence := 1, bbox := [],
         x := 0, y := mkRat 1 10 },
       { text := "b".data, confidence := 1, bbox := [],
         x := 0, y := mkRat 1 2 }]).vendor.length +
      (Layout.assignToZones
      [{ text := "a".data, confidence := 1, bbox := [],
         x := 0, y := mkRat 1 10 },
       { text := "b".data, confidence := 1, bbox := [],
         x := 0, y := mkRat 1 2 }]).items.length +
      (Layout.assignToZones
      [{ text := "a".data, confidence := 1, bbox := [],
         x := 0, y := mkRat 1 10 },
       { text := "b".data, confidence := 1, bbox := [],
         x := 0, y := mkRat 1 2 }]).totals.length +
      (Layout.assignToZones
      [{ text := "a".data, confidence := 1, bbox := [],
         x := 0, y := mkRat 1 10 },
       { text := "b".data, confidence := 1, bbox := [],
         x := 0, y := mkRat 1 2 }]).footer.length +
      (Layout.assignToZones
      [{ text := "a".data, confidence := 1, bbox := [],
         x := 0, y := mkRat 1 10 },
       { text := "b".data, confidence := 1, bbox := [],
         x := 0, y := mkRat 1 2 }]).unknown.length = 2) ∧
    Layout.firstZone (mkRat 1 10) = "header".data := by
  constructor
  · exact (zone_assignment_partitions
      [{ text := "a".data, confidence := 1, bbox := [],
         x := 0, y := mkRat 1 10 },
       { text := "b".data, confidence := 1, bbox := [],
         x := 0, y := mkRat 1 2 }]).1
  · decide


unseal List.merge List.mergeSort Rat.add Rat.sub Rat.mul Rat.inv Rat.ofScientific in
/-- **C6** — Simplified extractor total fallback: with no total-keyword
match, `_extract_total` falls back to the maximum parsed amount in the
exclusive range (0.5, 50000) — but when some amount parses and none lies
in that range, the fallback evaluates `max([])`, which raises
`ValueError` instead of returning `None`.  A single element `'0.25'`
(parsed amount 0.25, outside the range) triggers the error; when an
in-range amount exists the maximum is returned; an empty document yields
`None`. -/
theorem simple_extract_total_fallback :
    (Simple.extractTotal
      [{ text := "0.25".data, confidence := 1, bbox := [], x := 0, y := 0 }] =
      Except.error "max() arg is an empty sequence") ∧
    (Simple.extractTotal
      [{ text := "2.00".data, confidence := 1, bbox := [], x := 0, y := 0 },
       { text := "3.00".data, confidence := 1, bbox := [], x := 0, y := 0 }] =
      Except.ok (some 3)) ∧
    (Simple.extractTotal [] = Except.ok none) := by
  refine ⟨by rfl, by rfl, by rfl⟩


/-- Modelled from the claim's words: the count of top-level fields whose
extraction actually found a value (a field whose extraction found no
value counts as empty). -/
def claimFieldsExtracted (d : Extract.ExtractedData) : Nat :=
  [d.invoice_number.value.isSome,
   d.dates.invoice_date.value.isSome || d.dates.due_date.value.isSome ||
     decide (d.dates.other_dates ≠ []),
   d.amounts.total.value.isSome || d.amounts.subtotal.value.isSome ||
     d.amounts.tax.value.isSome || d.amounts.discount.value.isSome,
   d.tax_info.tax_id.value.isSome || d.tax_info.tax_percentage.value.isSome,
   d.vendor_info.name.value.isSome || d.vendor_info.phone.value.isSome ||
     d.vendor_info.email.value.isSome ||
     decide (d.vendor_info.address.value ≠ []),
   d.customer_info.name.value.isSome ||
     decide (d.customer_info.address.value ≠ []),
   decide (d.line_items ≠ []),
   d.currency.value.isSome,
   d.payment_terms.value.isSome].count true

unseal List.merge List.mergeSort Rat.add Rat.sub Rat.mul Rat.inv Rat.ofScientific in
/-- **C5 counterexample** — on the empty OCR input no field except the
defaulted currency finds a value, yet `fields_extracted` is 8: the
failed extractions still return non-empty (Python-truthy) envelope
dicts, and `sum(1 for v in extracted.values() if v and v != {})` counts
them; only the empty `line_items` list is excluded.  Under the claim's
reading ("a field whose extraction found no value counts as empty") the
count would be 1. -/
theorem fields_extracted_counts_empty_envelopes :
    (Extract.extractAllFields []).metadata.fields_extracted = 8 ∧
    (Extract.extractAllFields []).metadata.total_fields = 9 ∧
    (Extract.extractAllFields []).invoice_number.value = none ∧
    (Extract.extractAllFields []).dates.invoice_date.value = none ∧
    (Extract.extractAllFields []).dates.due_date.value = none ∧
    (Extract.extractAllFields []).amounts.total.value = none ∧
    (Extract.extractAllFields []).payment_terms.value = none ∧
    (Extract.extractAllFields []).currency.value = some "USD".data ∧
    claimFieldsExtracted (Extract.extractAllFields []) = 1 ∧
    (8 : Nat) ≠ 1 := by
  refine ⟨by rfl, by rfl, by rfl, by rfl, by rfl, by rfl, by rfl, by rfl,
    by rfl, by decide⟩

/-- **C5 (amended)** — `total_fields` is always 9, and
`fields_extracted` counts the Python-truthy top-level values: the eight
dict-valued fields are always non-empty dicts (truthy even when no value
was found), and `line_items` counts exactly when it is non-empty — so
`fields_extracted` is 8 when no line items were extracted and 9
otherwise. -/
theorem fields_extracted_formula (ocr : List Element) :
    (Extract.extractAllFields ocr).metadata.total_fields = 9 ∧
    (Extract.extractAllFields ocr).metadata.fields_extracted =
      (if (Extract.extractAllFields ocr).line_items = [] then 8 else 9) := by
  constructor
  · rfl
  · by_cases h : Extract.extractLineItems (Layout.analyze ocr) = [] <;>
      simp [Extract.extractAllFields, h]


/-- Transitivity of the candidate ordering (sort key: distance). -/
theorem distLe_trans (a b c : ℚ × Layout.Element) :
    (decide (a.1 ≤ b.1)) = true → (decide (b.1 ≤ c.1)) = true →
    (decide (a.1 ≤ c.1)) = true := by
  simp only [decide_eq_true_eq]
  exact le_trans

/-- Totality of the candidate ordering. -/
theorem distLe_total (a b : ℚ × Layout.Element) :
    (decide (a.1 ≤ b.1) || decide (b.1 ≤ a.1)) = true := by
  simp only [Bool.or_eq_true, decide_eq_true_eq]
  exact le_total a.1 b.1

/-- **C8** — Key-value pair invariant: every pair emitted by
`_detect_key_value_pairs` comes from a label element `el` (containing a
field keyword or a colon) and a value element `v` with
`v.x > el.x`, `v.x - el.x < 0.3` and `|v.y - el.y| < 0.02` (normalized
centers); the emitted distance is `v.x - el.x`, and it is minimal among
all candidates meeting those constraints for that label. -/
theorem kv_pair_invariant (ocr : List Layout.Element) (p : Layout.KVPair)
    (hp : p ∈ Layout.detectKeyValuePairs ocr) :
    ∃ i el d v,
      ocr[i]? = some el ∧
      (Layout.labelKeywords.any
          (fun kw => strContains (pyLower el.text) kw) = true ∨
        el.text.contains ':' = true) ∧
      (d, v) ∈ Layout.kvCandidates ocr i el ∧
      v.x > el.x ∧ v.x - el.x < 0.3 ∧
      |v.y - el.y| < Layout.alignmentThreshold ∧
      d = v.x - el.x ∧
      p.label = el.text ∧ p.value = v.text ∧ p.distance = d ∧
      (∀ d' v', (d', v') ∈ Layout.kvCandidates ocr i el → d ≤ d') := by
  unfold Layout.detectKeyValuePairs at hp
  rw [List.mem_filterMap] at hp
  obtain ⟨⟨i, el⟩, hmem, hf⟩ := hp
  have hget : ocr[i]? = some el := by
    have h := List.mem_enum hmem
    rw [List.getElem?_eq_some]
    exact ⟨h.1, h.2.symm⟩
  dsimp only at hf
  by_cases hcond : (Layout.labelKeywords.any
      (fun kw => strContains (pyLower el.text) kw) = true ∨
    el.text.contains ':' = true)
  swap
  · rw [if_neg hcond] at hf; exact absurd hf (by simp)
  rw [if_pos hcond] at hf
  set sorted := (Layout.kvCandidates ocr i el).mergeSort
    (fun a b => decide (a.1 ≤ b.1)) with hsorted
  match hm : sorted with
  | [] => exact absurd hf (by simp)
  | (d, v) :: rest =>
    simp only [Option.some.injEq] at hf
    have hdv : (d, v) ∈ Layout.kvCandidates ocr i el := by
      have hmem2 : (d, v) ∈ sorted := by
        rw [hm]; exact List.mem_cons_self _ _
      rw [hm, hsorted] at hmem2
      exact List.mem_mergeSort.mp hmem2
    have hprops := hdv
    unfold Layout.kvCandidates at hprops
    rw [List.mem_filterMap] at hprops
    obtain ⟨⟨j, other⟩, hmem', heq⟩ := hprops
    dsimp only at heq
    by_cases hij : i = j
    · rw [if_pos hij] at heq; exact absurd heq (by simp)
    rw [if_neg hij] at heq
    by_cases hcs : (other.x > el.x ∧ |other.y - el.y| <
        Layout.alignmentThreshold ∧ |other.x - el.x| < 0.3)
    swap
    · rw [if_neg hcs] at heq; exact absurd heq (by simp)
    rw [if_pos hcs] at heq
    simp only [Option.some.injEq, Prod.mk.injEq] at heq
    obtain ⟨hd, hv⟩ := heq
    subst hv
    refine ⟨i, el, d, other, hget, hcond, hdv, hcs.1, ?_, hcs.2.1, hd.symm,
      ?_, ?_, ?_, ?_⟩
    · have := hcs.2.2
      have hx : other.x - el.x ≥ 0 := by linarith [hcs.1]
      rwa [abs_of_nonneg hx] at this
    · rw [← hf]
    · rw [← hf]
    · rw [← hf]
    · intro d' v' hmem''
      have hsorted' : List.Pairwise
          (fun a b : ℚ × Layout.Element => decide (a.1 ≤ b.1) = true)
          ((d, other) :: rest) := by
        rw [hsorted]
        exact List.sorted_mergeSort distLe_trans distLe_total _
      have hmem3 : (d', v') ∈ (d, other) :: rest := by
        rw [hsorted, List.mem_mergeSort]; exact hmem''
      rcases List.mem_cons.mp hmem3 with h | h
      · simp only [Prod.mk.injEq] at h
        exact le_of_eq h.1.symm
      · have := (List.pairwise_cons.mp hsorted').1 _ h
        simpa using this


/-- The label element of the C8 witness. -/
def c8Label : Layout.Element :=
  { text := "Total:".data, confidence := 0.97, bbox := [],
    x := mkRat 5 100, y := mkRat 8 10 }

/-- The value element of the C8 witness. -/
def c8Value : Layout.Element :=
  { text := "$10".data, confidence := 0.99, bbox := [],
    x := mkRat 2 10, y := mkRat 8 10 }

/-- The pair detected in the C8 witness document. -/
def c8Pair : Layout.KVPair :=
  { label := "Total:".data, value := "$10".data, label_bbox := [],
    value_bbox := [], label_confidence := 0.97, value_confidence := 0.99,
    distance := mkRat 15 100 }

unseal List.merge List.mergeSort Rat.add Rat.sub Rat.mul Rat.inv Rat.ofScientific in
/-- **C8 witness** — the invariant applied to the concrete two-element
document `["Total:", "$10"]`, whose only detected pair associates the
colon-bearing label with the element 0.15 to its right on the same
line. -/
theorem kv_pair_invariant_witness :
    (Layout.detectKeyValuePairs [c8Label, c8Value] = [c8Pair]) ∧
    (∃ i el d v,
      ([c8Label, c8Value] : List Layout.Element)[i]? = some el ∧
      (Layout.labelKeywords.any
          (fun kw => strContains (pyLower el.text) kw) = true ∨
        el.text.contains ':' = true) ∧
      (d, v) ∈ Layout.kvCandidates [c8Label, c8Value] i el ∧
      v.x > el.x ∧ v.x - el.x < 0.3 ∧
      |v.y - el.y| < Layout.alignmentThreshold ∧
      d = v.x - el.x ∧
      c8Pair.label = el.text ∧ c8Pair.value = v.text ∧ c8Pair.distance = d ∧
      (∀ d' v', (d', v') ∈ Layout.kvCandidates [c8Label, c8Value] i el →
        d ≤ d')) :=
  ⟨by decide, kv_pair_invariant [c8Label, c8Value] c8Pair (by decide)⟩


/-- The chunk decomposition induced by the walk of `_group_by_lines`:
given the previous (last-admitted) element, `chunksFrom` returns the
elements joined to the current line and the later lines (unsorted);
a new line starts exactly when the y-gap from the previous element is
*at least* the 0.02 threshold (the code keeps the element on the current
line only when the gap is strictly below it). -/
def chunksFrom (last : Layout.Element) :
    List Layout.Element → List Layout.Element × List (List Layout.Element)
  | [] => ([], [])
  | f :: fs =>
    let cr := chunksFrom f fs
    if |f.y - last.y| < Layout.alignmentThreshold then (f :: cr.1, cr.2)
    else ([], (f :: cr.1) :: cr.2)

/-- The line decomposition of `_group_by_lines`, phrased through
`chunksFrom`: sort by y, split at gaps ≥ 0.02, sort each line by x. -/
def linesSpec (es : List Layout.Element) : List (List Layout.Element) :=
  match es.mergeSort Layout.leY with
  | [] => []
  | e :: rest =>
    ((e :: (chunksFrom e rest).1).mergeSort Layout.leX) ::
      ((chunksFrom e rest).2.map fun c => c.mergeSort Layout.leX)

/-- The walk of `_group_by_lines` computes the chunk decomposition. -/
theorem groupWalk_eq (es : List Layout.Element) :
    ∀ (last : Layout.Element) (cur : List Layout.Element)
      (lines : List (List Layout.Element)),
      Layout.groupWalk last cur lines es =
        lines ++ [(cur ++ (chunksFrom last es).1).mergeSort Layout.leX] ++
          ((chunksFrom last es).2.map fun c => c.mergeSort Layout.leX) := by
  induction es with
  | nil => intro last cur lines; simp [Layout.groupWalk, chunksFrom]
  | cons f fs ih =>
    intro last cur lines
    by_cases h : |f.y - last.y| < Layout.alignmentThreshold
    · rw [Layout.groupWalk, if_pos h, ih]
      simp [chunksFrom, h]
    · rw [Layout.groupWalk, if_neg h, ih]
      simp [chunksFrom, h]

/-- `groupByLines` equals the chunk decomposition. -/
theorem groupByLines_eq_linesSpec (es : List Layout.Element) :
    Layout.groupByLines es = linesSpec es := by
  unfold Layout.groupByLines linesSpec
  match h : es.mergeSort Layout.leY with
  | [] => rfl
  | e :: rest =>
    simp only []
    rw [groupWalk_eq]
    simp


/-- `leY` is transitive. -/
theorem leY_trans (a b c : Layout.Element) : Layout.leY a b = true →
    Layout.leY b c = true → Layout.leY a c = true := by
  simp only [Layout.leY, decide_eq_true_eq]
  exact le_trans

/-- `leY` is total. -/
theorem leY_total (a b : Layout.Element) :
    (Layout.leY a b || Layout.leY b a) = true := by
  simp only [Layout.leY, Bool.or_eq_true, decide_eq_true_eq]
  exact le_total a.y b.y

/-- `leX` is transitive. -/
theorem leX_trans (a b c : Layout.Element) : Layout.leX a b = true →
    Layout.leX b c = true → Layout.leX a c = true := by
  simp only [Layout.leX, decide_eq_true_eq]
  exact le_trans

/-- `leX` is total. -/
theorem leX_total (a b : Layout.Element) :
    (Layout.leX a b || Layout.leX b a) = true := by
  simp only [Layout.leX, Bool.or_eq_true, decide_eq_true_eq]
  exact le_total a.x b.x

/-- The alignment threshold is positive. -/
theorem alignmentThreshold_pos : (0 : ℚ) < Layout.alignmentThreshold := by
  norm_num [Layout.alignmentThreshold]

/-- In a y-sorted run starting at `last`, every later element with the
same y-coordinate stays in the first chunk (consecutive gaps between
equal y-values are zero, below the threshold). -/
theorem block_in_first (es : List Layout.Element) :
    ∀ (last : Layout.Element),
      List.Pairwise (fun a b => Layout.leY a b = true) (last :: es) →
      ∀ e ∈ es, e.y = last.y → e ∈ (chunksFrom last es).1 := by
  induction es with
  | nil => intro last _ e he; simp at he
  | cons f fs ih =>
    intro last hsort e he hy
    have hlf : last.y ≤ f.y := by
      have := (List.pairwise_cons.mp hsort).1 f (List.mem_cons_self _ _)
      simpa [Layout.leY] using this
    have htail := (List.pairwise_cons.mp hsort).2
    rcases List.mem_cons.mp he with rfl | he'
    · have hgap : |e.y - last.y| < Layout.alignmentThreshold := by
        rw [hy]
        simpa using alignmentThreshold_pos
      simp only [chunksFrom, if_pos hgap]
      exact List.mem_cons_self _ _
    · have hfe : f.y ≤ e.y := by
        have := (List.pairwise_cons.mp htail).1 e he'
        simpa [Layout.leY] using this
      have hfy : f.y = last.y := le_antisymm (hy ▸ hfe) hlf
      have hgap : |f.y - last.y| < Layout.alignmentThreshold := by
        rw [hfy]
        simpa using alignmentThreshold_pos
      simp only [chunksFrom, if_pos hgap]
      exact List.mem_cons_of_mem _ (ih f htail e he' (hy.trans hfy.symm))

/-- In a y-sorted run, two elements with equal y-coordinates end up in
the same chunk of the decomposition. -/
theorem same_chunk (es : List Layout.Element) :
    ∀ (last : Layout.Element),
      List.Pairwise (fun a b => Layout.leY a b = true) (last :: es) →
      ∀ a ∈ last :: es, ∀ b ∈ last :: es, a.y = b.y →
      ∃ c ∈ (last :: (chunksFrom last es).1) :: (chunksFrom last es).2,
        a ∈ c ∧ b ∈ c := by
  induction es with
  | nil =>
    intro last _ a ha b hb _
    simp only [List.mem_singleton] at ha hb
    subst ha; subst hb
    exact ⟨_, List.mem_cons_self _ _,
      List.mem_cons_self _ _, List.mem_cons_self _ _⟩
  | cons f fs ih =>
    intro last hsort a ha b hb hy
    have htail := (List.pairwise_cons.mp hsort).2
    have hlf : last.y ≤ f.y := by
      have := (List.pairwise_cons.mp hsort).1 f (List.mem_cons_self _ _)
      simpa [Layout.leY] using this
    have hheadle : ∀ x ∈ f :: fs, f.y ≤ x.y := by
      intro x hx
      rcases List.mem_cons.mp hx with rfl | hx'
      · exact le_refl _
      · have := (List.pairwise_cons.mp htail).1 x hx'
        simpa [Layout.leY] using this
    rcases List.mem_cons.mp ha with rfl | ha'
    · rcases List.mem_cons.mp hb with rfl | hb'
      · exact ⟨_, List.mem_cons_self _ _,
          List.mem_cons_self _ _, List.mem_cons_self _ _⟩
      · have hbf : b ∈ (chunksFrom a (f :: fs)).1 :=
          block_in_first (f :: fs) a hsort b hb' hy.symm
        exact ⟨_, List.mem_cons_self _ _, List.mem_cons_self _ _,
          List.mem_cons_of_mem _ hbf⟩
    · rcases List.mem_cons.mp hb with rfl | hb'
      · have haf : a ∈ (chunksFrom b (f :: fs)).1 :=
          block_in_first (f :: fs) b hsort a ha' hy
        exact ⟨_, List.mem_cons_self _ _,
          List.mem_cons_of_mem _ haf, List.mem_cons_self _ _⟩
      · obtain ⟨c, hc, hac, hbc⟩ := ih f htail a ha' b hb' hy
        by_cases hgap : |f.y - last.y| < Layout.alignmentThreshold
        · rcases List.mem_cons.mp hc with rfl | hc'
          · refine ⟨last :: (chunksFrom last (f :: fs)).1,
              List.mem_cons_self _ _, ?_, ?_⟩
            · simp only [chunksFrom, if_pos hgap]
              exact List.mem_cons_of_mem _ hac
            · simp only [chunksFrom, if_pos hgap]
              exact List.mem_cons_of_mem _ hbc
          · refine ⟨c, ?_, hac, hbc⟩
            apply List.mem_cons_of_mem
            simp only [chunksFrom, if_pos hgap]
            exact hc'
        · refine ⟨c, ?_, hac, hbc⟩
          apply List.mem_cons_of_mem
          simp only [chunksFrom, if_neg hgap]
          exact hc


/-- Modelled from the claim's words: the same walk as `_group_by_lines`
but starting a new line exactly when the gap *exceeds* 0.02 (the element
stays on the current line when the gap is ≤ 0.02). -/
def claimGroupWalk : Layout.Element → List Layout.Element →
    List (List Layout.Element) → List Layout.Element →
    List (List Layout.Element)
  | _, cur, lines, [] => lines ++ [cur.mergeSort Layout.leX]
  | last, cur, lines, e :: es =>
    if |e.y - last.y| ≤ Layout.alignmentThreshold then
      claimGroupWalk e (cur ++ [e]) lines es
    else
      claimGroupWalk e [e] (lines ++ [cur.mergeSort Layout.leX]) es

/-- Modelled from the claim's words: `_group_by_lines` with a new line
exactly when the gap exceeds 0.02. -/
def claimGroupByLines (ocr : List Layout.Element) :
    List (List Layout.Element) :=
  match ocr.mergeSort Layout.leY with
  | [] => []
  | e :: rest => claimGroupWalk e [e] [] rest

/-- The first counterexample element (y = 0). -/
def c7a : Layout.Element :=
  { text := "a".data, confidence := 1, bbox := [], x := 0, y := 0 }

/-- The second counterexample element (y = 0.02, exactly the threshold). -/
def c7b : Layout.Element :=
  { text := "b".data, confidence := 1, bbox := [], x := 0, y := mkRat 2 100 }

unseal List.merge List.mergeSort Rat.add Rat.sub Rat.mul Rat.inv Rat.ofScientific in
/-- **C7 counterexample** — at a gap of exactly 0.02 the code starts a
new line (the stay-condition is `abs(...) < 0.02`, strict), while the
claim's "new line exactly when the gap exceeds 0.02" would keep the two
elements together. -/
theorem line_gap_boundary_counterexample :
    Layout.groupByLines [c7a, c7b] = [[c7a], [c7b]] ∧
    claimGroupByLines [c7a, c7b] = [[c7a, c7b]] ∧
    ([[c7a], [c7b]] : List (List Layout.Element)) ≠ [[c7a, c7b]] := by
  refine ⟨by decide, by decide, by decide⟩

/-- **C7 (amended)** — Line grouping: `_group_by_lines` sorts elements
by normalized y and walks once, starting a new line exactly when the gap
from the last-admitted element's y is *at least* 0.02 (each new member
is compared to the walk's previous element, which is the current line's
last accepted element); consequently elements with identical normalized
y-center always land in the same line, and each finished line is sorted
left-to-right by x. -/
theorem line_grouping_properties :
    (∀ es : List Layout.Element, Layout.groupByLines es = linesSpec es) ∧
    (∀ (es : List Layout.Element), ∀ a ∈ es, ∀ b ∈ es, a.y = b.y →
      ∃ line ∈ Layout.groupByLines es, a ∈ line ∧ b ∈ line) ∧
    (∀ (es : List Layout.Element), ∀ line ∈ Layout.groupByLines es,
      line.Pairwise fun p q => p.x ≤ q.x) := by
  refine ⟨groupByLines_eq_linesSpec, ?_, ?_⟩
  · intro es a ha b hb hy
    rw [groupByLines_eq_linesSpec]
    unfold linesSpec
    match h : es.mergeSort Layout.leY with
    | [] =>
      exfalso
      have : a ∈ es.mergeSort Layout.leY := List.mem_mergeSort.mpr ha
      rw [h] at this
      exact absurd this (List.not_mem_nil a)
    | e :: rest =>
      have hsort : List.Pairwise (fun a b => Layout.leY a b = true)
          (e :: rest) := by
        rw [← h]
        exact List.sorted_mergeSort leY_trans leY_total es
      have ha' : a ∈ e :: rest := by
        rw [← h]; exact List.mem_mergeSort.mpr ha
      have hb' : b ∈ e :: rest := by
        rw [← h]; exact List.mem_mergeSort.mpr hb
      obtain ⟨c, hc, hac, hbc⟩ := same_chunk rest e hsort a ha' b hb' hy
      refine ⟨c.mergeSort Layout.leX, ?_, List.mem_mergeSort.mpr hac,
        List.mem_mergeSort.mpr hbc⟩
      simp only []
      rcases List.mem_cons.mp hc with rfl | hc'
      · exact List.mem_cons_self _ _
      · exact List.mem_cons_of_mem _ (List.mem_map_of_mem _ hc')
  · intro es line hline
    rw [groupByLines_eq_linesSpec] at hline
    unfold linesSpec at hline
    have hchunk : ∃ c : List Layout.Element,
        line = c.mergeSort Layout.leX := by
      match h : es.mergeSort Layout.leY with
      | [] => rw [h] at hline; exact absurd hline (List.not_mem_nil _)
      | e :: rest =>
        rw [h] at hline
        rcases List.mem_cons.mp hline with h1 | h1
        · exact ⟨_, h1⟩
        · obtain ⟨c, _, hc⟩ := List.mem_map.mp h1
          exact ⟨c, hc.symm⟩
    obtain ⟨c, rfl⟩ := hchunk
    have := List.sorted_mergeSort leX_trans leX_total c
    exact this.imp fun hab => by simpa [Layout.leX] using hab

/-- **C7 witness** — the equal-y rule applied to a concrete pair: two
elements with identical y-centers 0 land in the same line. -/
theorem line_grouping_properties_witness :
    ∃ line ∈ Layout.groupByLines
      [c7a, { text := "c".data, confidence := 1, bbox := [],
              x := mkRat 1 2, y := 0 }],
      c7a ∈ line ∧
      ({ text := "c".data, confidence := 1, bbox := [],
         x := mkRat 1 2, y := 0 } : Layout.Element) ∈ line :=
  line_grouping_properties.2.1 _ c7a (by decide)
    { text := "c".data, confidence := 1, bbox := [], x := mkRat 1 2, y := 0 }
    (by decide) rfl


/-- `amountStep` is `elemOutcome` with the accumulator as the default. -/
theorem amountStep_eq_elemOutcome (tot : List Layout.Element)
    (kws : List Str) (cur : Extract.AmountR) (el : Layout.Element) :
    Extract.amountStep tot kws cur el
      = (Extract.elemOutcome tot kws el).getD cur := by
  unfold Extract.amountStep Extract.elemOutcome
  by_cases h : (kws.any fun kw =>
      decide (strContains (pyLower el.text) kw = true ∨
        strContains el.text kw = true)) = true
  · simp only [if_pos h]
    cases Extract.extractAmountFromText el.text with
    | some a => rfl
    | none =>
      cases hf : (Layout.findElementsNear tot el.text "right".data
          0.4).findSome? (fun near =>
            (Extract.extractAmountFromText near.text).map fun a =>
              (a, near.confidence)) with
      | some p => cases p; rfl
      | none => rfl
  · simp only [if_neg h]; rfl

/-- Folding "overwrite on success" keeps the last successful outcome. -/
theorem foldl_getD_lastWrite {α β : Type} (f : α → Option β)
    (l : List α) (init : β) :
    l.foldl (fun cur el => (f el).getD cur) init
      = ((l.filterMap f).getLast?).getD init := by
  induction l generalizing init with
  | nil => rfl
  | cons a as ih =>
    simp only [List.foldl_cons, List.filterMap_cons]
    cases hf : f a with
    | none => simp only [Option.getD_none, ih]
    | some b =>
      simp only [Option.getD_some, ih]
      cases hxs : as.filterMap f with
      | nil => rfl
      | cons c cs =>
        rw [List.getLast?_cons_cons]
        obtain ⟨d, hd⟩ := Option.isSome_iff_exists.mp
          (List.getLast?_isSome.mpr (List.cons_ne_nil c cs))
        rw [hd]
        rfl

/-- The last element of a list is a member. -/
theorem mem_of_getLast_some {α : Type} {l : List α} {a : α}
    (h : l.getLast? = some a) : a ∈ l := by
  induction l with
  | nil => exact absurd h (by simp)
  | cons x xs ih =>
    cases xs with
    | nil =>
      simp only [List.getLast?_singleton, Option.some.injEq] at h
      simp [h]
    | cons y ys =>
      rw [List.getLast?_cons_cons] at h
      exact List.mem_cons_of_mem _ (ih h)

/-- Reading the field just written. -/
theorem AmountsR.get_set_same (a : Extract.AmountsR) (ty : Extract.AmtType)
    (v : Extract.AmountR) : (a.set ty v).get ty = v := by
  cases ty <;> rfl

/-- Writing one field leaves the others unchanged. -/
theorem AmountsR.get_set_other (a : Extract.AmountsR)
    (ty ty' : Extract.AmtType) (v : Extract.AmountR) (h : ty' ≠ ty) :
    (a.set ty' v).get ty = a.get ty := by
  cases ty <;> cases ty' <;> first | rfl | exact absurd rfl h

/-- The per-type strategy-1 fold keeps the last successful element's
envelope. -/
theorem amountStep_foldl (tot : List Layout.Element) (kws : List Str)
    (init : Extract.AmountR) :
    tot.foldl (fun cur el => Extract.amountStep tot kws cur el) init
      = ((tot.filterMap (Extract.elemOutcome tot kws)).getLast?).getD init := by
  have h : (fun cur el => Extract.amountStep tot kws cur el)
      = fun cur el => (Extract.elemOutcome tot kws el).getD cur := by
    funext cur el; exact amountStep_eq_elemOutcome tot kws cur el
  rw [h, foldl_getD_lastWrite]

/-- Strategy 1, per amount type: the stored envelope is the last
successful element's outcome (or the zero envelope when none). -/
theorem amountsS1_get (tot : List Layout.Element) (ty : Extract.AmtType)
    (kws : List Str) (hty : (ty, kws) ∈ Extract.amountTypes) :
    (Extract.amountsS1 tot).get ty
      = ((tot.filterMap (Extract.elemOutcome tot kws)).getLast?).getD
          { value := none, confidence := 0, source := none, zone := none } := by
  simp only [Extract.amountTypes, List.mem_cons, List.not_mem_nil, or_false,
    Prod.mk.injEq] at hty
  rcases hty with ⟨rfl, rfl⟩ | ⟨rfl, rfl⟩ | ⟨rfl, rfl⟩ | ⟨rfl, rfl⟩ <;>
    simp only [Extract.amountsS1, Extract.amountTypes, List.foldl_cons,
      List.foldl_nil, Extract.AmountsR.get, Extract.AmountsR.set,
      Extract.amountsInit, amountStep_foldl]



/-- A property holding of every `some` output of `f` holds of any `some`
result of `findSome?`. -/
theorem findSome_some_prop {α β : Type} (p : β → Prop) (f : α → Option β)
    (hf : ∀ a b, f a = some b → p b) :
    ∀ (l : List α) (b : β), l.findSome? f = some b → p b := by
  intro l
  induction l with
  | nil => intro b h; exact absurd h (by simp)
  | cons a as ih =>
    intro b h
    rw [List.findSome?_cons] at h
    cases hfa : f a with
    | some c =>
      rw [hfa] at h
      exact hf a b (hfa.trans h)
    | none => rw [hfa] at h; exact ih b h

/-- Any amount accepted by `_extract_amount_from_text` is positive. -/
theorem extractAmountFromText_pos (t : Str) (a : ℚ)
    (h : Extract.extractAmountFromText t = some a) : 0 < a := by
  unfold Extract.extractAmountFromText at h
  refine findSome_some_prop (fun q => 0 < q) _ ?_ _ a h
  intro pat b hp
  dsimp only at hp
  cases hs : Re.search pat.2 (Patterns.normalizeArabicNumbers t) with
  | none => rw [hs] at hp; exact absurd hp (by simp)
  | some m =>
    rw [hs] at hp
    dsimp only at hp
    by_cases hc : Patterns.cleanAmountOpt
        (Extract.group1OrWhole m (Patterns.normalizeArabicNumbers t)) > 0 ∧
      Patterns.cleanAmountOpt
        (Extract.group1OrWhole m (Patterns.normalizeArabicNumbers t))
          < 1000000000
    · rw [if_pos hc] at hp
      cases hp
      exact hc.1
    · rw [if_neg hc] at hp; exact absurd hp (by simp)

/-- Every envelope written by strategy 1 carries a positive — hence
Python-truthy — value. -/
theorem elemOutcome_truthy (tot : List Layout.Element) (kws : List Str)
    (el : Layout.Element) (env : Extract.AmountR)
    (h : Extract.elemOutcome tot kws el = some env) :
    Extract.pyTruthyQ env.value = true := by
  unfold Extract.elemOutcome at h
  by_cases hkw : (kws.any fun kw =>
      decide (strContains (pyLower el.text) kw = true ∨
        strContains el.text kw = true)) = true
  swap
  · rw [if_neg hkw] at h; exact absurd h (by simp)
  rw [if_pos hkw] at h
  cases ha : Extract.extractAmountFromText el.text with
  | some a =>
    rw [ha] at h
    cases h
    simpa [Extract.pyTruthyQ] using ne_of_gt (extractAmountFromText_pos el.text a ha)
  | none =>
    rw [ha] at h
    cases hf : (Layout.findElementsNear tot el.text "right".data
        0.4).findSome? (fun near =>
          (Extract.extractAmountFromText near.text).map fun a =>
            (a, near.confidence)) with
    | none => rw [hf] at h; exact absurd h (by simp)
    | some p =>
      rw [hf] at h
      obtain ⟨a, conf⟩ := p
      have hpos : (0 : ℚ) < a := by
        refine findSome_some_prop (fun q : ℚ × ℚ => 0 < q.1) _ ?_ _ _ hf
        intro near b hb
        cases hx : Extract.extractAmountFromText near.text with
        | none => rw [hx] at hb; exact absurd hb (by simp)
        | some x =>
          rw [hx] at hb
          simp only [Option.map_some'] at hb
          cases hb
          exact extractAmountFromText_pos near.text x hx
      cases h
      simpa [Extract.pyTruthyQ] using ne_of_gt hpos


/-- Strategy 2 never changes a field whose stored value is truthy. -/
theorem amountsS2_get_of_truthy (a : Extract.AmountsR)
    (ty : Extract.AmtType)
    (h : Extract.pyTruthyQ (a.get ty).value = true) :
    (Extract.amountsS2 a).get ty = a.get ty := by
  unfold Extract.amountsS2
  split
  · rename_i hcond
    dsimp only
    split
    · cases ty with
      | subtotal => exact absurd h hcond.2.2
      | total => rfl
      | tax => rfl
      | discount => rfl
    · rfl
  · rfl

/-- One strategy-3 step never changes a field whose stored value is
truthy. -/
theorem amountsS3Step_get_of_truthy (pair : Layout.KVPair)
    (a : Extract.AmountsR) (tyk : Extract.AmtType × List Str)
    (ty : Extract.AmtType)
    (h : Extract.pyTruthyQ (a.get ty).value = true) :
    (Extract.amountsS3Step pair a tyk).get ty = a.get ty := by
  unfold Extract.amountsS3Step
  dsimp only
  split
  · split
    · rename_i hguard
      split
      · by_cases hty : tyk.1 = ty
        · subst hty; exact absurd h hguard
        · exact AmountsR.get_set_other a ty tyk.1 _ hty
      · rfl
    · rfl
  · rfl

/-- The per-type inner fold of strategy 3 never changes a truthy
field. -/
theorem amountsS3_inner_get_of_truthy (pair : Layout.KVPair)
    (tys : List (Extract.AmtType × List Str)) (ty : Extract.AmtType) :
    ∀ b : Extract.AmountsR, Extract.pyTruthyQ (b.get ty).value = true →
    (tys.foldl (Extract.amountsS3Step pair) b).get ty = b.get ty := by
  induction tys with
  | nil => intro b _; rfl
  | cons t ts ih =>
    intro b hb
    rw [List.foldl_cons]
    have hstep := amountsS3Step_get_of_truthy pair b t ty hb
    rw [ih _ (by rw [hstep]; exact hb), hstep]

/-- Strategy 3 never changes a field whose stored value is truthy. -/
theorem amountsS3_get_of_truthy (pairs : List Layout.KVPair)
    (ty : Extract.AmtType) :
    ∀ a : Extract.AmountsR, Extract.pyTruthyQ (a.get ty).value = true →
    (Extract.amountsS3 pairs a).get ty = a.get ty := by
  induction pairs with
  | nil => intro a _; rfl
  | cons p ps ih =>
    intro a ha
    have h1 := amountsS3_inner_get_of_truthy p Extract.amountTypes ty a ha
    have h2 : Extract.amountsS3 (p :: ps) a
        = Extract.amountsS3 ps (Extract.amountTypes.foldl
            (Extract.amountsS3Step p) a) := rfl
    rw [h2, ih _ (by rw [h1]; exact ha), h1]


/-- A totals-zone element "Total: 110.00" (upper). -/
def c10Total : Layout.Element :=
  { text := "Total: 110.00".data, confidence := mkRat 9 10, bbox := [],
    x := mkRat 1 10, y := mkRat 8 10 }

/-- A totals-zone element "Subtotal: 100.00" (lower, hence later in the
zone's top-to-bottom order). -/
def c10Subtotal : Layout.Element :=
  { text := "Subtotal: 100.00".data, confidence := mkRat 8 10, bbox := [],
    x := mkRat 1 10, y := mkRat 85 100 }

/-- A layout whose totals zone holds the two elements above. -/
def c10Layout : Layout.LayoutResult :=
  { zones := { Layout.emptyZones with totals := [c10Total, c10Subtotal] }
    lines := [], key_value_pairs := [], tables := []
    all_elements := [c10Total, c10Subtotal] }

unseal List.merge List.mergeSort Rat.add Rat.sub Rat.mul Rat.inv Rat.ofScientific in
set_option maxRecDepth 100000 in
/-- **C10** — Strategy 1 of `extract_amounts` does not short-circuit per
amount type: every totals-zone element containing a matching keyword is
examined in the zone's order and each successful amount parse overwrites
the stored envelope, so the field's returned value and confidence are
those of the LAST such element (the later strategies never replace a
field whose value was found, because parsed amounts are positive hence
Python-truthy); and 'total'-keyword matching fires by substring on
'subtotal' text: with totals-zone elements "Total: 110.00" above
"Subtotal: 100.00", the returned total is the second element's 100.00
with that element's confidence. -/
theorem amounts_keyword_last_write :
    (∀ (layout : Layout.LayoutResult) (ty : Extract.AmtType)
      (kws : List Str), (ty, kws) ∈ Extract.amountTypes →
      ∀ env : Extract.AmountR,
      ((layout.zones.get "totals".data).filterMap
        (Extract.elemOutcome (layout.zones.get "totals".data) kws)).getLast?
          = some env →
      (Extract.extractAmounts layout).get ty = env) ∧
    (Extract.extractAmounts c10Layout).get Extract.AmtType.total
      = { value := some 100, confidence := mkRat 8 10,
          source := some Extract.Src.keyword_same_element,
          zone := some "totals".data } := by
  constructor
  · intro layout ty kws hty env hlast
    have h1 : (Extract.amountsS1 (layout.zones.get "totals".data)).get ty
        = env := by
      rw [amountsS1_get _ ty kws hty, hlast]
      rfl
    have htr : Extract.pyTruthyQ env.value = true := by
      have hmem : env ∈ (layout.zones.get "totals".data).filterMap
          (Extract.elemOutcome (layout.zones.get "totals".data) kws) :=
        mem_of_getLast_some hlast
      obtain ⟨el, _, hout⟩ := List.mem_filterMap.mp hmem
      exact elemOutcome_truthy _ kws el env hout
    have h2 : (Extract.amountsS2 (Extract.amountsS1
        (layout.zones.get "totals".data))).get ty = env := by
      rw [amountsS2_get_of_truthy _ ty (by rw [h1]; exact htr), h1]
    have h3 := amountsS3_get_of_truthy layout.key_value_pairs ty
      (Extract.amountsS2 (Extract.amountsS1
        (layout.zones.get "totals".data)))
      (by rw [h2]; exact htr)
    show (Extract.amountsS3 layout.key_value_pairs (Extract.amountsS2
      (Extract.amountsS1 (layout.zones.get "totals".data)))).get ty = env
    rw [h3, h2]
  · decide

unseal List.merge List.mergeSort Rat.add Rat.sub Rat.mul Rat.inv Rat.ofScientific in
set_option maxRecDepth 100000 in
/-- **C10 witness** — the last-write rule applied at the concrete
layout: for the subtotal type, the only matching totals-zone element is
"Subtotal: 100.00", and its outcome envelope is the returned field. -/
theorem amounts_keyword_last_write_witness :
    (Extract.extractAmounts c10Layout).get Extract.AmtType.subtotal
      = { value := some 100, confidence := mkRat 8 10,
          source := some Extract.Src.keyword_same_element,
          zone := some "totals".data } :=
  amounts_keyword_last_write.1 c10Layout Extract.AmtType.subtotal
    Patterns.subtotalKeywords (by decide) _ (by decide)

end OCRPart
